import Mathlib

/-!
# Verification of the jquant.dev metered access-control engine

Shallow embedding of the core of the repository: the dual-window rate
limiter (`src/lib/rate-limit.ts`), the key registry (`src/lib/db.ts`,
file-backed path), the billing-event reconciler
(`src/app/api/stripe/webhook/route.ts`), the paid-key deletion guard
(the guarded `DELETE` handler for `/api/keys/[id]`), and the request
admission pipeline (`src/app/api/predict/route.ts`).

JavaScript numbers are modelled as `Int`; the shared JSON stores
(`usage.json`, `users.json`, `payments.json`) are modelled as
association lists; the wall clock is passed explicitly as the current
epoch-minute and the current calendar-date string; calls to the
external billing system (Stripe) are modelled as oracle parameters
where `none` stands for a failed or timed-out query.
-/

namespace JQuant

/-! ## Usage store (`usage.json`), from `src/lib/rate-limit.ts` -/

/-- One record of `usage.json`: the TS `UsageEntry` plus the best-effort
total-calls counter that `src/app/api/predict/route.ts` stores in the
same record. -/
structure UsageEntry where
  key : String
  minuteWindowStart : Int
  minuteCount : Int
  dayWindowStart : String
  dayCount : Int
  calls : Int
deriving Repr, DecidableEq

/-- `usage.json` as a whole: a map from key string to entry. -/
abbrev UsageStore := List (String × UsageEntry)

/-- Lookup `usages[key]`. -/
def lookupUsage : UsageStore → String → Option UsageEntry
  | [], _ => none
  | p :: rest, k => if p.1 = k then some p.2 else lookupUsage rest k

/-- `usages[key] = e` followed by writing the store back: replace the
first binding of `k`, or append a new one. -/
def insertUsage (s : UsageStore) (k : String) (e : UsageEntry) : UsageStore :=
  match s with
  | [] => [(k, e)]
  | p :: rest => if p.1 = k then (k, e) :: rest else p :: insertUsage rest k e

/-- Return value of `checkAndIncrementKey`. -/
structure RLResult where
  allowed : Bool
  minuteRemaining : Int
  dayRemaining : Int
deriving Repr, DecidableEq

/-- The lazily created counter record (`{ key, minuteWindowStart,
minuteCount: 0, dayWindowStart, dayCount: 0 }`). -/
def freshEntry (key : String) (nowMinute : Int) (nowDay : String) : UsageEntry :=
  { key := key, minuteWindowStart := nowMinute, minuteCount := 0,
    dayWindowStart := nowDay, dayCount := 0, calls := 0 }

/-- Independent window rollover: reset the minute count when the stored
minute window differs from the current one, and the day count when the
stored day string differs, each adopting the new window id. -/
def rollEntry (e : UsageEntry) (nowMinute : Int) (nowDay : String) : UsageEntry :=
  let e1 :=
    if e.minuteWindowStart ≠ nowMinute then
      { e with minuteWindowStart := nowMinute, minuteCount := 0 }
    else e
  if e1.dayWindowStart ≠ nowDay then
    { e1 with dayWindowStart := nowDay, dayCount := 0 }
  else e1

/-- The entry `checkAndIncrementKey` works on after loading (or lazily
creating) it and rolling both windows over. -/
def rolledEntry (store : UsageStore) (key : String) (nowMinute : Int)
    (nowDay : String) : UsageEntry :=
  rollEntry ((lookupUsage store key).getD (freshEntry key nowMinute nowDay))
    nowMinute nowDay

/-- File-based path of `checkAndIncrementKey` (`src/lib/rate-limit.ts`):
load the entry (or create a fresh one), roll each window over
independently when its id changed, then either reject without
committing or commit both increments. `nowMinute` is
`Math.floor(now/60000)` and `nowDay` is `todayDateString()`. -/
def checkAndIncrementKeyFile (store : UsageStore) (key : String)
    (minuteLimit dayLimit : Int) (nowMinute : Int) (nowDay : String) :
    RLResult × UsageStore :=
  let entry2 := rolledEntry store key nowMinute nowDay
  let wouldBeMinute := entry2.minuteCount + 1
  let wouldBeDay := entry2.dayCount + 1
  if wouldBeMinute > minuteLimit ∨ wouldBeDay > dayLimit then
    ({ allowed := false,
       minuteRemaining := max 0 (minuteLimit - entry2.minuteCount),
       dayRemaining := max 0 (dayLimit - entry2.dayCount) },
     insertUsage store key entry2)
  else
    let entry3 := { entry2 with minuteCount := wouldBeMinute, dayCount := wouldBeDay }
    ({ allowed := true,
       minuteRemaining := minuteLimit - entry3.minuteCount,
       dayRemaining := dayLimit - entry3.dayCount },
     insertUsage store key entry3)

/-! ## Redis path of `checkAndIncrementKey` -/

/-- The Upstash counter store: a map from Redis key to integer value.
TTLs only garbage-collect stale windows and are not modelled. -/
abbrev RedisStore := List (String × Int)

def lookupRedis : RedisStore → String → Option Int
  | [], _ => none
  | p :: rest, k => if p.1 = k then some p.2 else lookupRedis rest k

def insertRedis (r : RedisStore) (k : String) (v : Int) : RedisStore :=
  match r with
  | [] => [(k, v)]
  | p :: rest => if p.1 = k then (k, v) :: rest else p :: insertRedis rest k v

/-- `redis.incr k`: atomically increment (a missing key counts as 0)
and return the new value. -/
def redisIncr (r : RedisStore) (k : String) : Int × RedisStore :=
  match lookupRedis r k with
  | some v => (v + 1, insertRedis r k (v + 1))
  | none => (1, insertRedis r k 1)

def minuteRedisKey (key : String) (nowMinute : Int) : String :=
  "usage:" ++ key ++ ":m:" ++ toString nowMinute

def dayRedisKey (key : String) (nowDay : String) : String :=
  "usage:" ++ key ++ ":d:" ++ nowDay

/-- Redis path of `checkAndIncrementKey`: increment both per-window
counters first, then decide admission from the post-increment values. -/
def checkAndIncrementKeyRedis (r : RedisStore) (key : String)
    (minuteLimit dayLimit : Int) (nowMinute : Int) (nowDay : String) :
    RLResult × RedisStore :=
  let m := redisIncr r (minuteRedisKey key nowMinute)
  let minuteCount := m.1
  let d := redisIncr m.2 (dayRedisKey key nowDay)
  let dayCount := d.1
  ({ allowed := decide (minuteCount ≤ minuteLimit ∧ dayCount ≤ dayLimit),
     minuteRemaining := max 0 (minuteLimit - minuteCount),
     dayRemaining := max 0 (dayLimit - dayCount) },
   d.2)

/-- Combined quota state: `redisConfigured` models
`makeUpstashClient() !== null`. -/
structure QuotaState where
  redisConfigured : Bool
  redis : RedisStore
  file : UsageStore
deriving Repr, DecidableEq

/-- `checkAndIncrementKey` as exported: prefer the Redis path when the
Upstash client is configured, otherwise fall back to the file path. -/
def checkAndIncrementKey (st : QuotaState) (key : String)
    (minuteLimit dayLimit : Int) (nowMinute : Int) (nowDay : String) :
    RLResult × QuotaState :=
  if st.redisConfigured then
    let r := checkAndIncrementKeyRedis st.redis key minuteLimit dayLimit nowMinute nowDay
    (r.1, { st with redis := r.2 })
  else
    let r := checkAndIncrementKeyFile st.file key minuteLimit dayLimit nowMinute nowDay
    (r.1, { st with file := r.2 })

/-! ## String utilities

JS `String.prototype.includes`, used by the substring heuristics of
`detectTierKeyFromPriceKey` and `getCallsFromPriceKey`. -/

/-- Does `needle` occur at the head of `hay`? -/
def charsStartWith : List Char → List Char → Bool
  | _, [] => true
  | [], _ :: _ => false
  | c :: cs, d :: ds => c = d && charsStartWith cs ds

/-- Does `needle` occur anywhere in `hay`? -/
def charsContain : List Char → List Char → Bool
  | [], needle => needle.isEmpty
  | c :: cs, needle => charsStartWith (c :: cs) needle || charsContain cs needle

/-- JS `hay.includes(needle)`. -/
def strIncludes (hay needle : String) : Bool :=
  charsContain hay.data needle.data

/-- JS `s.toUpperCase()` (ASCII, which covers every string these
handlers compare). -/
def jsToUpper (s : String) : String :=
  String.mk (s.data.map Char.toUpper)

/-! ## Environment and tier tables (`src/app/api/predict/route.ts`) -/

/-- `process.env`, restricted to the configured price-id variables. -/
abbrev EnvMap := List (String × String)

def envLookup : EnvMap → String → Option String
  | [], _ => none
  | p :: rest, name => if p.1 = name then some p.2 else envLookup rest name

/-- The `TIERS` table of `src/app/api/predict/route.ts`: minute and day
limits per tier name (day limits written out: `n * 720`). -/
def TIERS (t : String) : Option (Int × Int) :=
  if t = "free" then some (5, 25)
  else if t = "paid_10" then some (10, 7200)
  else if t = "paid_25" then some (25, 18000)
  else if t = "paid_50" then some (50, 36000)
  else if t = "paid_150" then some (150, 108000)
  else if t = "paid_500" then some (500, 360000)
  else none

/-- `ENV_PRICE_TO_CALLS`, in object-key order. -/
def ENV_PRICE_TO_CALLS : List (String × Int) :=
  [("TENCALLS_PRICE_ID", 10),
   ("TWENTYFIVECALLS_PRICE_ID", 25),
   ("FIFTYCALLS_PRICE_ID", 50),
   ("HUNDREDFIFTYCALLS_PRICE_ID", 150),
   ("FIVEHUNDREDCALLS_PRICE_ID", 500)]

/-- First loop of `detectTierKeyFromPriceKey`: is `pk` itself one of the
env-variable names of the table? -/
def envNameHit : List (String × Int) → String → Option Int
  | [], _ => none
  | (n, c) :: rest, pk => if pk = n then some c else envNameHit rest pk

/-- Second loop of `detectTierKeyFromPriceKey`: does `pk` equal one of
the configured price ids (`process.env[envName]`, when set and
non-empty)? -/
def configuredIdHit (env : EnvMap) : List (String × Int) → String → Option Int
  | [], _ => none
  | (n, c) :: rest, pk =>
    match envLookup env n with
    | some pid => if pid ≠ "" ∧ pid = pk then some c else configuredIdHit env rest pk
    | none => configuredIdHit env rest pk

/-- `detectTierKeyFromPriceKey` (`src/app/api/predict/route.ts`):
resolve a stored price identifier to a tier name; unmatched identifiers
fall through substring heuristics and finally default to `paid_10`. -/
def detectTierKeyFromPriceKey (priceKey : String) (env : EnvMap) : String :=
  if priceKey = "" then "paid_10"
  else
    match envNameHit ENV_PRICE_TO_CALLS priceKey with
    | some c => "paid_" ++ toString c
    | none =>
      match configuredIdHit env ENV_PRICE_TO_CALLS priceKey with
      | some c => "paid_" ++ toString c
      | none =>
        let up := jsToUpper priceKey
        if strIncludes up "TEN" then "paid_10"
        else if strIncludes up "TWENTY" || strIncludes up "TWENTYFIVE" then "paid_25"
        else if strIncludes up "FIFTY" then "paid_50"
        else if strIncludes up "HUNDRED" then "paid_150"
        else if strIncludes up "FIVEHUNDRED" || strIncludes up "500" then "paid_500"
        else "paid_10"

/-! ## Key registry (`src/lib/db.ts`, file-backed path) -/

/-- One API key record of `users.json`. `Option String` fields model
nullable/absent JS fields; `none` and `some ""` are both falsy. -/
structure ApiKey where
  id : String
  key : String
  name : String
  tier : String
  limit : Int
  priceKeyName : Option String
  subscriptionId : Option String
deriving Repr, DecidableEq

structure User where
  id : String
  email : String
  keys : List ApiKey
deriving Repr, DecidableEq

/-- One row of `payments.json` (`recordPayment`). -/
structure PaymentRec where
  userId : Option String
  priceKeyName : Option String
  amount : Int
  stripePaymentIntent : String
deriving Repr, DecidableEq

/-- JS truthiness of a nullable string. -/
def truthy : Option String → Bool
  | some s => s ≠ ""
  | none => false

def optStr (o : Option String) : String := o.getD ""

/-- `findUserById`: first user with the given id. -/
def findUserById : List User → String → Option User
  | [], _ => none
  | u :: rest, uid => if u.id = uid then some u else findUserById rest uid

/-- `findUserByEmail`: first user with the given email. -/
def findUserByEmail : List User → String → Option User
  | [], _ => none
  | u :: rest, email => if u.email = email then some u else findUserByEmail rest email

/-- `listKeysForUser`: keys of the first user with the given id. -/
def listKeysForUser (users : List User) (uid : String) : List ApiKey :=
  match findUserById users uid with
  | some u => u.keys
  | none => []

/-- `addApiKeyForUser` (file path): push a key onto the first user with
the given id. (The source throws when the user is missing; all call
sites guard on `findUserById` first, and on a missing user this
embedding leaves the list unchanged.) -/
def addKeyToUsers : List User → String → ApiKey → List User
  | [], _, _ => []
  | u :: rest, uid, k =>
    if u.id = uid then { u with keys := u.keys ++ [k] } :: rest
    else u :: addKeyToUsers rest uid k

/-- `rotateApiKeyForUser`'s loop body: replace the secret of the first
key whose id matches, leaving the rest untouched (`break`). -/
def rotateKeys : List ApiKey → String → String → List ApiKey
  | [], _, _ => []
  | k :: rest, keyId, newKey =>
    if k.id = keyId then { k with key := newKey } :: rest
    else k :: rotateKeys rest keyId newKey

/-- `rotateApiKeyForUser` (file path), with the generated `newKey`
passed explicitly: rewrite the first matching user's matching key. -/
def rotateUsers : List User → String → String → String → List User
  | [], _, _, _ => []
  | u :: rest, userId, keyId, newKey =>
    if u.id = userId then { u with keys := rotateKeys u.keys keyId newKey } :: rest
    else u :: rotateUsers rest userId keyId newKey

/-- `rotateApiKeyForUser` including its user-not-found throw: `none`
models the thrown error, `some` carries the updated store (the function
returns `newKey` itself on success). -/
def rotateApiKeyForUser (users : List User) (userId keyId newKey : String) :
    Option (List User) :=
  match findUserById users userId with
  | some _ => some (rotateUsers users userId keyId newKey)
  | none => none

/-- `removeApiKeyForUser` (file path): drop every key of the first
matching user whose id or secret equals the identifier. -/
def removeUsersKey : List User → String → String → List User
  | [], _, _ => []
  | u :: rest, uid, ident =>
    if u.id = uid then
      { u with keys := u.keys.filter (fun kk => ¬ (kk.id = ident) ∧ ¬ (kk.key = ident)) } :: rest
    else u :: removeUsersKey rest uid ident

/-- `findUserByApiKey`'s inner scan over one user's keys. -/
def findKeyIn : List ApiKey → String → Option ApiKey
  | [], _ => none
  | kk :: rest, secret => if kk.key = secret then some kk else findKeyIn rest secret

/-- `findUserByApiKey` (file path): scan users in order, returning the
first user holding a key with the given secret, with that key. -/
def findUserByApiKey : List User → String → Option (User × ApiKey)
  | [], _ => none
  | u :: rest, secret =>
    match findKeyIn u.keys secret with
    | some k => some (u, k)
    | none => findUserByApiKey rest secret

/-- `recordPayment` (file path): append one row to `payments.json`. -/
def recordPayment (payments : List PaymentRec) (userId priceKeyName : Option String)
    (amount : Int) (stripePaymentIntent : String) : List PaymentRec :=
  payments ++ [{ userId := userId, priceKeyName := priceKeyName,
                 amount := amount, stripePaymentIntent := stripePaymentIntent }]

/-! ## Admission pipeline (`POST` of `src/app/api/predict/route.ts`)

The downstream predictor call is abstracted: reaching it is the
`predicted` outcome (quota has been charged by then; its own
failure modes never touch the quota counters). -/

inductive PredictOutcome where
  /-- 401: missing header or unknown secret. -/
  | unauthorized : PredictOutcome
  /-- 429 with both remaining counts. -/
  | rateLimited (minuteRemaining dayRemaining : Int) : PredictOutcome
  /-- 400: body lacks a non-empty `ticker`/`symbol`. -/
  | missingTicker : PredictOutcome
  /-- Admitted and delegated to the predictor with this ticker. -/
  | predicted (ticker : String) : PredictOutcome
deriving Repr, DecidableEq

/-- Tier resolution of the pipeline, steps (2)-(3): free keys use the
fixed `free` limits, any other key resolves via
`detectTierKeyFromPriceKey`; `TIERS[t] || TIERS['free']`. -/
def resolvedLimits (k : ApiKey) (env : EnvMap) : Int × Int :=
  let tierKeyName :=
    if k.tier = "free" then "free"
    else detectTierKeyFromPriceKey (optStr k.priceKeyName) env
  (TIERS tierKeyName).getD (5, 25)

/-- The best-effort `usage.json` total-calls increment performed after
a successful prediction. A record created by this write alone has its
window fields undefined; `-1` and `""` stand for those undefined ids
(distinct from every real window id). -/
def incrementCalls (store : UsageStore) (key : String) : UsageStore :=
  match lookupUsage store key with
  | some e => insertUsage store key { e with calls := e.calls + 1 }
  | none =>
    insertUsage store key
      { key := key, minuteWindowStart := -1, minuteCount := 0,
        dayWindowStart := "", dayCount := 0, calls := 1 }

/-- The `POST` handler of the prediction endpoint. `apiKeyHeader` is
the extracted bearer secret (`none`/empty ⇒ 401); `bodyTicker` is
`body?.ticker || body?.symbol || ''` of the parsed body (`none` models
a missing field). Note the order: the quota check-and-increment runs
before the body is parsed. -/
def predictPOST (users : List User) (qs : QuotaState) (env : EnvMap)
    (apiKeyHeader : Option String) (bodyTicker : Option String)
    (nowMinute : Int) (nowDay : String) : PredictOutcome × QuotaState :=
  match apiKeyHeader with
  | none => (.unauthorized, qs)
  | some apiKey =>
    if apiKey = "" then (.unauthorized, qs)
    else
      match findUserByApiKey users apiKey with
      | none => (.unauthorized, qs)
      | some (_, k) =>
        let limits := resolvedLimits k env
        let rl := checkAndIncrementKey qs apiKey limits.1 limits.2 nowMinute nowDay
        if rl.1.allowed = false then
          (.rateLimited rl.1.minuteRemaining rl.1.dayRemaining, rl.2)
        else
          match bodyTicker with
          | none => (.missingTicker, rl.2)
          | some t =>
            if t = "" then (.missingTicker, rl.2)
            else
              (.predicted (jsToUpper t),
               { rl.2 with file := incrementCalls rl.2.file apiKey })

/-! ## Billing-event reconciler (`src/app/api/stripe/webhook/route.ts`)

The Stripe price lookup is an oracle `String → Option Int` returning
`price.unit_amount || 0` on success and `none` when the call throws or
times out. The subscription lookup is `String → Option (Option String)`:
outer `none` when the call throws, inner the first item's price id. -/

/-- The webhook's `getCallsFromPriceKey` table together with the result
of `envName.replace('_PRICE_ID', '')` for each of the five names. -/
def ENV_PRICE_TO_CALLS3 : List (String × String × Int) :=
  [("TENCALLS_PRICE_ID", "TENCALLS", 10),
   ("TWENTYFIVECALLS_PRICE_ID", "TWENTYFIVECALLS", 25),
   ("FIFTYCALLS_PRICE_ID", "FIFTYCALLS", 50),
   ("HUNDREDFIFTYCALLS_PRICE_ID", "HUNDREDFIFTYCALLS", 150),
   ("FIVEHUNDREDCALLS_PRICE_ID", "FIVEHUNDREDCALLS", 500)]

/-- The loop of `getCallsFromPriceKey`: per env name, first compare
against the configured price id, then substring-match the stripped
name. -/
def getCallsLoop (env : EnvMap) : List (String × String × Int) → String → Option Int
  | [], _ => none
  | (n, stripped, c) :: rest, kid =>
    match envLookup env n with
    | some pid =>
      if pid ≠ "" ∧ pid = kid then some c
      else if strIncludes kid stripped then some c
      else getCallsLoop env rest kid
    | none =>
      if strIncludes kid stripped then some c
      else getCallsLoop env rest kid

/-- `getCallsFromPriceKey` of the webhook: resolve a stored price key
or price id to calls-per-minute, defaulting to 60. -/
def getCallsFromPriceKey (env : EnvMap) (keyOrId : String) : Int :=
  if keyOrId = "" then 60
  else
    match envNameHit ENV_PRICE_TO_CALLS keyOrId with
    | some c => c
    | none =>
      match getCallsLoop env ENV_PRICE_TO_CALLS3 keyOrId with
      | some c => c
      | none => 60

/-- The mutable world the webhook acts on. -/
structure WorldState where
  users : List User
  payments : List PaymentRec
deriving Repr, DecidableEq

/-- Amount verification of the `payment_intent.succeeded` branch:
`none` means the handler returns the `amount_mismatch` 400; `some c`
means processing continues with `callsPerMin = c`. A failed price
lookup (`oracle _ = none`) is caught and processing continues with the
default 60. -/
def piPriceId (env : EnvMap) (priceKeyName : String) : String :=
  match envLookup env priceKeyName with
  | some pid => if pid ≠ "" then pid else priceKeyName
  | none => priceKeyName

def piVerify (env : EnvMap) (oracle : String → Option Int)
    (priceKeyName : String) (amount : Int) : Option Int :=
  if priceKeyName = "" then some 60
  else
    let priceId := piPriceId env priceKeyName
    if priceId = "" then some 60
    else
      match oracle priceId with
      | none => some 60
      | some expected =>
        if amount ≠ expected then none
        else
          let c := getCallsFromPriceKey env priceKeyName
          some (if c ≠ 0 then c else getCallsFromPriceKey env priceId)

/-- `payment_intent.succeeded` branch of the webhook `POST` (the
variant that skips key creation when a paid key exists). Returns the
HTTP status and the updated world. `newId` is the generated UUID used
as both id and secret of a created key. -/
def processPaymentIntent (env : EnvMap) (oracle : String → Option Int)
    (userId priceKeyName : String) (amount : Int) (piId : String)
    (newId : String) (st : WorldState) : Int × WorldState :=
  if userId = "" then (200, st)
  else
    match piVerify env oracle priceKeyName amount with
    | none => (400, st)
    | some callsPerMin =>
      let payments2 := recordPayment st.payments (some userId)
        (if priceKeyName = "" then none else some priceKeyName) amount piId
      match findUserById st.users userId with
      | none => (200, { st with payments := payments2 })
      | some user =>
        if (listKeysForUser st.users user.id).any (fun k => k.tier = "paid") then
          (200, { st with payments := payments2 })
        else
          let newKey : ApiKey :=
            { id := newId, key := newId, name := "Paid key", tier := "paid",
              limit := callsPerMin,
              priceKeyName := if priceKeyName = "" then none else some priceKeyName,
              subscriptionId := none }
          (200, { users := addKeyToUsers st.users userId newKey, payments := payments2 })

/-- `checkout.session.completed` branch of the webhook `POST` (same
variant). `subOracle` models `stripe.subscriptions.retrieve`: outer
`none` when it throws (the branch's `catch` then ignores the event),
inner the first item's price id (`none` when absent). -/
def processCheckout (env : EnvMap) (subOracle : String → Option (Option String))
    (userId subscriptionId customerEmail : String) (amountTotal : Int)
    (newId : String) (st : WorldState) : Int × WorldState :=
  if subscriptionId = "" then (200, st)
  else
    match subOracle subscriptionId with
    | none => (200, st)
    | some priceIdOpt =>
      let callsPerMin :=
        if truthy priceIdOpt then getCallsFromPriceKey env (optStr priceIdOpt) else 60
      let user1 := if userId ≠ "" then findUserById st.users userId else none
      let user2 :=
        match user1 with
        | some u => some u
        | none => if customerEmail ≠ "" then findUserByEmail st.users customerEmail else none
      match user2 with
      | none => (200, st)
      | some user =>
        let payments2 := recordPayment st.payments (some user.id)
          (if truthy priceIdOpt then some (optStr priceIdOpt) else none)
          amountTotal subscriptionId
        if (listKeysForUser st.users user.id).any (fun k => k.tier = "paid") then
          (200, { st with payments := payments2 })
        else
          let newKey : ApiKey :=
            { id := newId, key := newId, name := "Subscription key", tier := "paid",
              limit := callsPerMin,
              priceKeyName := if truthy priceIdOpt then some (optStr priceIdOpt) else none,
              subscriptionId := some subscriptionId }
          (200, { users := addKeyToUsers st.users user.id newKey, payments := payments2 })

/-! ## Paid-key deletion guard (guarded `DELETE` handler for
`/api/keys/[id]`)

Every Stripe call in the handler carries an inline rejection handler:
`subscriptions.retrieve(..).catch(()=>null)`,
`prices.retrieve(..).catch(()=>null)`,
`customers.list(..).catch(()=>({data:[]}))`,
`subscriptions.list(..).catch(()=>({data:[]}))`.
The oracle below models the value each call site observes after that
handler: `subStatus _ = none` is a failed (or null) retrieval, and the
`customers`/`subs` lists are the already-collapsed `data` arrays (a
failed list call yields `[]`). -/

/-- One subscription item as the guard inspects it: its price id and
the price's product (`""` models a missing product). -/
structure PItem where
  priceId : String
  product : String
deriving Repr, DecidableEq

/-- One subscription returned by `subscriptions.list`. -/
structure SubRec where
  id : String
  status : String
  items : List PItem
deriving Repr, DecidableEq

structure DeleteOracle where
  /-- `subscriptions.retrieve(sid).catch(()=>null)`: the subscription
  status, or `none` when the query failed or returned null. -/
  subStatus : String → Option String
  /-- `prices.retrieve(pid).catch(()=>null)`: price id and product. -/
  priceInfo : String → Option (String × String)
  /-- Customer ids for an email (failure already collapsed to `[]`). -/
  customers : String → List String
  /-- Subscriptions of a customer (failure collapsed to `[]`). -/
  subs : String → List SubRec

/-- The statuses the guard treats as not active. -/
def canceledish (status : String) : Bool :=
  status = "canceled" || status = "incomplete_expired" || status = "deleted"

/-- The three-branch subscription check of the guarded `DELETE`:
`true` means an active subscription was detected and deletion is
refused with a 400. -/
def deleteGuardBlocked (env : EnvMap) (o : DeleteOracle) (user : User)
    (dk : ApiKey) : Bool :=
  if truthy dk.subscriptionId then
    match o.subStatus (optStr dk.subscriptionId) with
    | some status => decide (status ≠ "") && !(canceledish status)
    | none => false
  else if truthy dk.priceKeyName then
    let pkName := optStr dk.priceKeyName
    let targetPriceId :=
      match envLookup env pkName with
      | some v => if v ≠ "" then v else pkName
      | none => pkName
    let priceObj := if targetPriceId ≠ "" then o.priceInfo targetPriceId else none
    (o.customers user.email).any (fun c =>
      (o.subs c).any (fun s =>
        !(canceledish s.status) &&
        s.items.any (fun it =>
          (decide (targetPriceId ≠ "") && decide (it.priceId = targetPriceId)) ||
          (match priceObj with
           | some pr =>
             decide (it.priceId = pr.1) ||
             (decide (it.product ≠ "") && decide (it.product = pr.2))
           | none => false))))
  else
    (o.customers user.email).any (fun c =>
      (o.subs c).any (fun s => decide (s.status ≠ "") && !(canceledish s.status)))

/-- The guarded `DELETE` handler after authentication resolved
`actingUserId`: look up the key, refuse free keys, run the
subscription guard, then remove the key via `removeApiKeyForUser`. -/
def deleteKeyGuarded (users : List User) (env : EnvMap) (o : DeleteOracle)
    (actingUserId keyParam : String) : Int × List User :=
  match findUserById users actingUserId with
  | none => (401, users)
  | some user =>
    match user.keys.find? (fun k => k.id = keyParam ∨ k.key = keyParam) with
    | some dk =>
      if dk.tier = "free" then (400, users)
      else if deleteGuardBlocked env o user dk then (400, users)
      else (200, removeUsersKey users user.id keyParam)
    | none => (200, removeUsersKey users user.id keyParam)

/-! ## Concurrency model for the rate limiter

A request through the file-based path performs two steps with an await
point between them: it first reads `usage.json` into a local snapshot,
then computes and writes the whole snapshot back. A schedule
interleaves the steps of several requests against the same key. -/

inductive ReqPhase where
  | ready : ReqPhase
  | loaded (snapshot : UsageStore) : ReqPhase
  | finished (r : RLResult) : ReqPhase
deriving Repr, DecidableEq

structure ConcState where
  store : UsageStore
  reqs : List ReqPhase
deriving Repr, DecidableEq

/-- Advance request `i` by one step: `ready` requests read the shared
store; `loaded` requests run the rest of `checkAndIncrementKeyFile` on
their stale snapshot and overwrite the shared store. -/
def fileReqStep (key : String) (mL dL : Int) (nowMinute : Int) (nowDay : String)
    (cs : ConcState) (i : Nat) : ConcState :=
  match cs.reqs.get? i with
  | some .ready => { cs with reqs := cs.reqs.set i (.loaded cs.store) }
  | some (.loaded snap) =>
    let r := checkAndIncrementKeyFile snap key mL dL nowMinute nowDay
    { store := r.2, reqs := cs.reqs.set i (.finished r.1) }
  | some (.finished _) => cs
  | none => cs

def fileRun (key : String) (mL dL : Int) (nowMinute : Int) (nowDay : String)
    (cs : ConcState) (schedule : List Nat) : ConcState :=
  schedule.foldl (fileReqStep key mL dL nowMinute nowDay) cs

/-- How many requests finished admitted. -/
def admittedCount : List ReqPhase → Nat
  | [] => 0
  | .finished r :: rest => (if r.allowed then 1 else 0) + admittedCount rest
  | .ready :: rest => admittedCount rest
  | .loaded _ :: rest => admittedCount rest

/-- The Redis path performs its check-and-increment atomically per
request, so a request is a single step. -/
structure RedisConcState where
  redis : RedisStore
  reqs : List (Option RLResult)
deriving Repr, DecidableEq

def redisReqStep (key : String) (mL dL : Int) (nowMinute : Int) (nowDay : String)
    (cs : RedisConcState) (i : Nat) : RedisConcState :=
  match cs.reqs.get? i with
  | some none =>
    let r := checkAndIncrementKeyRedis cs.redis key mL dL nowMinute nowDay
    { redis := r.2, reqs := cs.reqs.set i (some r.1) }
  | _ => cs

def redisRun (key : String) (mL dL : Int) (nowMinute : Int) (nowDay : String)
    (cs : RedisConcState) (schedule : List Nat) : RedisConcState :=
  schedule.foldl (redisReqStep key mL dL nowMinute nowDay) cs

def redisAdmittedCount : List (Option RLResult) → Nat
  | [] => 0
  | some r :: rest => (if r.allowed then 1 else 0) + redisAdmittedCount rest
  | none :: rest => redisAdmittedCount rest

/-! ## Basic store lemmas -/

theorem lookupUsage_insert_self (s : UsageStore) (k : String) (e : UsageEntry) :
    lookupUsage (insertUsage s k e) k = some e := by
  induction s with
  | nil => simp [insertUsage, lookupUsage]
  | cons p rest ih =>
    by_cases h : p.1 = k
    · simp [insertUsage, h, lookupUsage]
    · simpa [insertUsage, h, lookupUsage] using ih

theorem lookupUsage_insert_ne (s : UsageStore) (k k2 : String) (e : UsageEntry)
    (h : k ≠ k2) : lookupUsage (insertUsage s k e) k2 = lookupUsage s k2 := by
  induction s with
  | nil => simp [insertUsage, lookupUsage, h]
  | cons p rest ih =>
    by_cases hp : p.1 = k
    · simp [insertUsage, hp, lookupUsage, h]
    · by_cases hp2 : p.1 = k2
      · simp [insertUsage, hp, lookupUsage, hp2, Ne.symm h]
      · simpa [insertUsage, hp, lookupUsage, hp2] using ih

theorem insertUsage_insert_self (s : UsageStore) (k : String) (e e2 : UsageEntry) :
    insertUsage (insertUsage s k e) k e2 = insertUsage s k e2 := by
  induction s with
  | nil => simp [insertUsage]
  | cons p rest ih =>
    by_cases h : p.1 = k
    · simp [insertUsage, h]
    · simp [insertUsage, h, ih]

theorem lookupRedis_insert_self (r : RedisStore) (k : String) (v : Int) :
    lookupRedis (insertRedis r k v) k = some v := by
  induction r with
  | nil => simp [insertRedis, lookupRedis]
  | cons p rest ih =>
    by_cases h : p.1 = k
    · simp [insertRedis, h, lookupRedis]
    · simpa [insertRedis, h, lookupRedis] using ih

theorem lookupRedis_insert_ne (r : RedisStore) (k k2 : String) (v : Int)
    (h : k ≠ k2) : lookupRedis (insertRedis r k v) k2 = lookupRedis r k2 := by
  induction r with
  | nil => simp [insertRedis, lookupRedis, h]
  | cons p rest ih =>
    by_cases hp : p.1 = k
    · simp [insertRedis, hp, lookupRedis, h]
    · by_cases hp2 : p.1 = k2
      · simp [insertRedis, hp, lookupRedis, hp2, Ne.symm h]
      · simpa [insertRedis, hp, lookupRedis, hp2] using ih

/-! ## Claim C1 -/

/-- Claim C1 (amended): on the file-based fallback path of
`checkAndIncrementKey`, whenever either prospective count
(current + 1) exceeds its limit, the call returns `allowed = false`,
commits neither increment — the store keeps the pre-increment counts,
changed only by window rollover — and reports
`minuteRemaining = minuteLimit - currentMinuteCount` and
`dayRemaining = dayLimit - currentDayCount` from the pre-increment
(post-rollover) counts. (The Redis path of the same function commits
both increments before checking and reports remaining quota from the
post-increment values, so the claim does not hold for it; see the
counterexample.) -/
theorem file_reject_commits_nothing (st : QuotaState) (key : String)
    (mL dL nowMinute : Int) (nowDay : String)
    (hfile : st.redisConfigured = false)
    (hreject : (rolledEntry st.file key nowMinute nowDay).minuteCount + 1 > mL ∨
      (rolledEntry st.file key nowMinute nowDay).dayCount + 1 > dL)
    (hmc : (rolledEntry st.file key nowMinute nowDay).minuteCount ≤ mL)
    (hdc : (rolledEntry st.file key nowMinute nowDay).dayCount ≤ dL) :
    (checkAndIncrementKey st key mL dL nowMinute nowDay).1.allowed = false ∧
    (checkAndIncrementKey st key mL dL nowMinute nowDay).1.minuteRemaining =
      mL - (rolledEntry st.file key nowMinute nowDay).minuteCount ∧
    (checkAndIncrementKey st key mL dL nowMinute nowDay).1.dayRemaining =
      dL - (rolledEntry st.file key nowMinute nowDay).dayCount ∧
    (checkAndIncrementKey st key mL dL nowMinute nowDay).2.file =
      insertUsage st.file key (rolledEntry st.file key nowMinute nowDay) ∧
    lookupUsage (checkAndIncrementKey st key mL dL nowMinute nowDay).2.file key =
      some (rolledEntry st.file key nowMinute nowDay) ∧
    (checkAndIncrementKey st key mL dL nowMinute nowDay).2.redis = st.redis := by
  have hout : checkAndIncrementKey st key mL dL nowMinute nowDay =
      ({ allowed := false,
         minuteRemaining :=
           max 0 (mL - (rolledEntry st.file key nowMinute nowDay).minuteCount),
         dayRemaining :=
           max 0 (dL - (rolledEntry st.file key nowMinute nowDay).dayCount) },
       { st with file := insertUsage st.file key (rolledEntry st.file key nowMinute nowDay) }) := by
    simp [checkAndIncrementKey, checkAndIncrementKeyFile, hfile, if_pos hreject]
  rw [hout]
  refine ⟨rfl, max_eq_right (by omega), max_eq_right (by omega), rfl,
    lookupUsage_insert_self _ _ _, rfl⟩

/-- Witness for `file_reject_commits_nothing`: a concrete rejected call
(minute limit 1, entry already at count 1 in the current windows). -/
theorem file_reject_commits_nothing_witness :
    (checkAndIncrementKey
      { redisConfigured := false, redis := [],
        file := [("k", { key := "k", minuteWindowStart := 0, minuteCount := 1,
                         dayWindowStart := "d", dayCount := 1, calls := 0 })] }
      "k" 1 10 0 "d").1.allowed = false ∧
    (checkAndIncrementKey
      { redisConfigured := false, redis := [],
        file := [("k", { key := "k", minuteWindowStart := 0, minuteCount := 1,
                         dayWindowStart := "d", dayCount := 1, calls := 0 })] }
      "k" 1 10 0 "d").1.minuteRemaining = 1 - 1 ∧
    (checkAndIncrementKey
      { redisConfigured := false, redis := [],
        file := [("k", { key := "k", minuteWindowStart := 0, minuteCount := 1,
                         dayWindowStart := "d", dayCount := 1, calls := 0 })] }
      "k" 1 10 0 "d").1.dayRemaining = 10 - 1 := by
  have h := file_reject_commits_nothing
    { redisConfigured := false, redis := [],
      file := [("k", { key := "k", minuteWindowStart := 0, minuteCount := 1,
                       dayWindowStart := "d", dayCount := 1, calls := 0 })] }
    "k" 1 10 0 "d" rfl (by decide) (by decide) (by decide)
  exact ⟨h.1, by rw [h.2.1]; decide, by rw [h.2.2.1]; decide⟩

/-- Claim C1 counterexample: on the Redis path (Upstash configured) a
call whose prospective minute count exceeds the limit still commits the
day increment (the stored day count moves from 1 to 2) and reports
`dayRemaining = 8`, not `dayLimit - currentDayCount = 10 - 1 = 9`. -/
theorem redis_reject_commits_increments :
    (checkAndIncrementKey
      (checkAndIncrementKey { redisConfigured := true, redis := [], file := [] }
        "k" 1 10 0 "d").2 "k" 1 10 0 "d").1.allowed = false ∧
    lookupRedis
      (checkAndIncrementKey { redisConfigured := true, redis := [], file := [] }
        "k" 1 10 0 "d").2.redis (dayRedisKey "k" "d") = some 1 ∧
    lookupRedis
      (checkAndIncrementKey
        (checkAndIncrementKey { redisConfigured := true, redis := [], file := [] }
          "k" 1 10 0 "d").2 "k" 1 10 0 "d").2.redis (dayRedisKey "k" "d") = some 2 ∧
    (checkAndIncrementKey
      (checkAndIncrementKey { redisConfigured := true, redis := [], file := [] }
        "k" 1 10 0 "d").2 "k" 1 10 0 "d").1.dayRemaining = 8 := by
  decide

/-- The admitted case of the file-based path: when neither prospective
count exceeds its limit, both increments are committed and remaining
quota is reported from the new counts. -/
theorem file_allow (store : UsageStore) (key : String) (mL dL nowMinute : Int)
    (nowDay : String)
    (hm : (rolledEntry store key nowMinute nowDay).minuteCount + 1 ≤ mL)
    (hd : (rolledEntry store key nowMinute nowDay).dayCount + 1 ≤ dL) :
    checkAndIncrementKeyFile store key mL dL nowMinute nowDay =
      ({ allowed := true,
         minuteRemaining := mL - ((rolledEntry store key nowMinute nowDay).minuteCount + 1),
         dayRemaining := dL - ((rolledEntry store key nowMinute nowDay).dayCount + 1) },
       insertUsage store key
         { rolledEntry store key nowMinute nowDay with
           minuteCount := (rolledEntry store key nowMinute nowDay).minuteCount + 1,
           dayCount := (rolledEntry store key nowMinute nowDay).dayCount + 1 }) := by
  have hcond : ¬((rolledEntry store key nowMinute nowDay).minuteCount + 1 > mL ∨
      (rolledEntry store key nowMinute nowDay).dayCount + 1 > dL) := by omega
  simp [checkAndIncrementKeyFile, if_neg hcond]

/-! ## Claim C7 -/

/-- Claim C7 (amended): tier resolution for paid keys goes through
`detectTierKeyFromPriceKey`; a price identifier that is one of the
canonical env names resolves via the table, but an identifier matching
no env name, no configured price id and no substring heuristic is
silently defaulted to `paid_10` (minute 10 / day 7200) rather than
raising a configuration error, and requests are served under that
default. -/
theorem unmapped_price_key_defaults_to_paid10 (env : EnvMap) (pk name : String)
    (c : Int)
    (hmapped : envNameHit ENV_PRICE_TO_CALLS name = some c)
    (hname : envNameHit ENV_PRICE_TO_CALLS pk = none)
    (hid : configuredIdHit env ENV_PRICE_TO_CALLS pk = none)
    (hsub1 : strIncludes (jsToUpper pk) "TEN" = false)
    (hsub2 : strIncludes (jsToUpper pk) "TWENTY" = false)
    (hsub2b : strIncludes (jsToUpper pk) "TWENTYFIVE" = false)
    (hsub3 : strIncludes (jsToUpper pk) "FIFTY" = false)
    (hsub4 : strIncludes (jsToUpper pk) "HUNDRED" = false)
    (hsub5 : strIncludes (jsToUpper pk) "FIVEHUNDRED" = false)
    (hsub5b : strIncludes (jsToUpper pk) "500" = false) :
    detectTierKeyFromPriceKey name env = "paid_" ++ toString c ∧
    detectTierKeyFromPriceKey pk env = "paid_10" ∧
    TIERS (detectTierKeyFromPriceKey pk env) = some (10, 7200) := by
  have hdetect : detectTierKeyFromPriceKey pk env = "paid_10" := by
    by_cases hpk : pk = ""
    · simp [detectTierKeyFromPriceKey, hpk]
    · simp [detectTierKeyFromPriceKey, hpk, hname, hid, hsub1, hsub2, hsub2b,
        hsub3, hsub4, hsub5, hsub5b]
  refine ⟨?_, hdetect, ?_⟩
  · by_cases hn : name = ""
    · rw [hn] at hmapped
      have : envNameHit ENV_PRICE_TO_CALLS "" = none := by decide
      rw [this] at hmapped
      cases hmapped
    · simp [detectTierKeyFromPriceKey, hn, hmapped]
  · rw [hdetect]
    decide

/-- Witness for `unmapped_price_key_defaults_to_paid10`: the mapped
name `FIFTYCALLS_PRICE_ID` resolves to `paid_50`, while the unmapped
identifier `UNMAPPED_X` silently resolves to `paid_10`. -/
theorem unmapped_price_key_defaults_to_paid10_witness :
    detectTierKeyFromPriceKey "FIFTYCALLS_PRICE_ID" [] = "paid_" ++ toString (50 : Int) ∧
    detectTierKeyFromPriceKey "UNMAPPED_X" [] = "paid_10" ∧
    TIERS (detectTierKeyFromPriceKey "UNMAPPED_X" []) = some (10, 7200) := by
  exact unmapped_price_key_defaults_to_paid10 [] "UNMAPPED_X" "FIFTYCALLS_PRICE_ID" 50
    (by decide) (by decide) (by decide) (by decide) (by decide) (by decide)
    (by decide) (by decide) (by decide) (by decide)

/-- Claim C7 counterexample: a paid key whose stored price identifier
`UNMAPPED_X` is absent from the canonical mapping table is not a hard
configuration error — the identifier silently resolves to `paid_10`
and the request is served (admitted and delegated to the predictor). -/
theorem unmapped_price_key_request_served :
    detectTierKeyFromPriceKey "UNMAPPED_X" [] = "paid_10" ∧
    (predictPOST
      [{ id := "u1", email := "a@b.c",
         keys := [{ id := "k1", key := "sec1", name := "Paid key", tier := "paid",
                    limit := 60, priceKeyName := some "UNMAPPED_X",
                    subscriptionId := none }] }]
      { redisConfigured := false, redis := [], file := [] }
      [] (some "sec1") (some "AAPL") 0 "d").1 = .predicted "AAPL" := by
  decide

/-! ## Claim C9 -/

/-- Claim C9 (amended): a request whose body lacks a target symbol is
rejected with 400, but only after the admission check has charged
quota: when the presented key is valid and the quota check admits the
request, the missing-ticker 400 is returned with both counters of that
key already incremented — the quota counters are not unchanged. -/
theorem missing_ticker_rejected_after_quota_charge (users : List User)
    (qs : QuotaState) (env : EnvMap) (u : User) (k : ApiKey) (apiKey : String)
    (nowMinute : Int) (nowDay : String)
    (hfile : qs.redisConfigured = false)
    (hkey : apiKey ≠ "")
    (hfound : findUserByApiKey users apiKey = some (u, k))
    (hm : (rolledEntry qs.file apiKey nowMinute nowDay).minuteCount + 1 ≤
      (resolvedLimits k env).1)
    (hd : (rolledEntry qs.file apiKey nowMinute nowDay).dayCount + 1 ≤
      (resolvedLimits k env).2) :
    predictPOST users qs env (some apiKey) none nowMinute nowDay =
      (.missingTicker,
       { qs with
         file := insertUsage qs.file apiKey
                   ({ rolledEntry qs.file apiKey nowMinute nowDay with
                      minuteCount := (rolledEntry qs.file apiKey nowMinute nowDay).minuteCount + 1,
                      dayCount := (rolledEntry qs.file apiKey nowMinute nowDay).dayCount + 1 }) }) := by
  have hch : checkAndIncrementKey qs apiKey (resolvedLimits k env).1
      (resolvedLimits k env).2 nowMinute nowDay =
      ({ allowed := true,
         minuteRemaining := (resolvedLimits k env).1 -
           ((rolledEntry qs.file apiKey nowMinute nowDay).minuteCount + 1),
         dayRemaining := (resolvedLimits k env).2 -
           ((rolledEntry qs.file apiKey nowMinute nowDay).dayCount + 1) },
       { qs with
         file := insertUsage qs.file apiKey
                   ({ rolledEntry qs.file apiKey nowMinute nowDay with
                      minuteCount := (rolledEntry qs.file apiKey nowMinute nowDay).minuteCount + 1,
                      dayCount := (rolledEntry qs.file apiKey nowMinute nowDay).dayCount + 1 }) }) := by
    simp [checkAndIncrementKey, hfile,
      file_allow qs.file apiKey (resolvedLimits k env).1 (resolvedLimits k env).2
        nowMinute nowDay hm hd]
  simp [predictPOST, hkey, hfound, hch]

/-- Witness for `missing_ticker_rejected_after_quota_charge`: a free
key with a fresh counter; the ticker-less request gets 400 with the
counter charged to (1, 1). -/
theorem missing_ticker_rejected_after_quota_charge_witness :
    predictPOST
      [{ id := "u1", email := "a@b.c",
         keys := [{ id := "kf", key := "secf", name := "Default", tier := "free",
                    limit := 5, priceKeyName := none, subscriptionId := none }] }]
      { redisConfigured := false, redis := [], file := [] }
      [] (some "secf") none 0 "d" =
      (.missingTicker,
       { redisConfigured := false, redis := [],
         file := [("secf", { key := "secf", minuteWindowStart := 0, minuteCount := 1,
                             dayWindowStart := "d", dayCount := 1, calls := 0 })] }) := by
  have h := missing_ticker_rejected_after_quota_charge
    [{ id := "u1", email := "a@b.c",
       keys := [{ id := "kf", key := "secf", name := "Default", tier := "free",
                  limit := 5, priceKeyName := none, subscriptionId := none }] }]
    { redisConfigured := false, redis := [], file := [] }
    []
    { id := "u1", email := "a@b.c",
      keys := [{ id := "kf", key := "secf", name := "Default", tier := "free",
                 limit := 5, priceKeyName := none, subscriptionId := none }] }
    { id := "kf", key := "secf", name := "Default", tier := "free",
      limit := 5, priceKeyName := none, subscriptionId := none }
    "secf" 0 "d" rfl (by decide) (by decide) (by decide) (by decide)
  rw [h]
  decide

/-- Claim C9 counterexample: a valid-key request with no ticker in the
body is answered with the 400 `missingTicker` outcome, yet the quota
counter for the presented key has been created and charged to
minute count 1 / day count 1 by that same request — the claim's
"quota counters unchanged" is false on the code, because the
check-and-increment runs before the body is parsed. -/
theorem missing_ticker_still_charges_quota :
    (predictPOST
      [{ id := "u1", email := "a@b.c",
         keys := [{ id := "kf", key := "secf", name := "Default", tier := "free",
                    limit := 5, priceKeyName := none, subscriptionId := none }] }]
      { redisConfigured := false, redis := [], file := [] }
      [] (some "secf") none 0 "d").1 = .missingTicker ∧
    lookupUsage
      (predictPOST
        [{ id := "u1", email := "a@b.c",
           keys := [{ id := "kf", key := "secf", name := "Default", tier := "free",
                      limit := 5, priceKeyName := none, subscriptionId := none }] }]
        { redisConfigured := false, redis := [], file := [] }
        [] (some "secf") none 0 "d").2.file "secf" =
      some { key := "secf", minuteWindowStart := 0, minuteCount := 1,
             dayWindowStart := "d", dayCount := 1, calls := 0 } := by
  decide

/-! ## Claim C8 -/

theorem piPriceId_ne_empty (env : EnvMap) (priceKeyName : String)
    (h : priceKeyName ≠ "") : piPriceId env priceKeyName ≠ "" := by
  unfold piPriceId
  cases envLookup env priceKeyName with
  | none => exact h
  | some pid =>
    by_cases hp : pid = ""
    · simp [hp, h]
    · simp [hp]

/-- Claim C8 (amended): for a one-off payment event, when the price
lookup succeeds the paid amount is verified against the configured
amount and a mismatch rejects the event with 400, granting nothing and
recording nothing; but when the price lookup fails or times out, the
handler catches the error and continues — it records the payment and
grants a paid key at the default 60 calls/min — instead of skipping
the grant and leaving state unchanged. -/
theorem payment_mismatch_rejects_but_lookup_failure_grants
    (env : EnvMap) (o1 o2 : String → Option Int)
    (userId priceKeyName piId newId : String) (amount expected : Int)
    (st : WorldState) (u : User)
    (huid : userId ≠ "") (hpk : priceKeyName ≠ "")
    (ho1 : o1 (piPriceId env priceKeyName) = some expected)
    (hmis : amount ≠ expected)
    (ho2 : o2 (piPriceId env priceKeyName) = none)
    (hu : findUserById st.users userId = some u)
    (hnopaid : (listKeysForUser st.users u.id).any (fun k => k.tier = "paid") = false) :
    processPaymentIntent env o1 userId priceKeyName amount piId newId st = (400, st) ∧
    processPaymentIntent env o2 userId priceKeyName amount piId newId st =
      (200,
       { users := addKeyToUsers st.users userId
           { id := newId, key := newId, name := "Paid key", tier := "paid",
             limit := 60, priceKeyName := some priceKeyName, subscriptionId := none },
         payments := recordPayment st.payments (some userId) (some priceKeyName)
           amount piId }) := by
  have hpid := piPriceId_ne_empty env priceKeyName hpk
  constructor
  · simp [processPaymentIntent, huid, piVerify, hpk, hpid, ho1, hmis]
  · simp [processPaymentIntent, huid, piVerify, hpk, hpid, ho2, hu, hnopaid]

/-- Witness for `payment_mismatch_rejects_but_lookup_failure_grants`:
price `TENCALLS_PRICE_ID` configured at 1000, event paid 999. The
successful lookup rejects; the failed lookup grants at 60 calls/min. -/
theorem payment_mismatch_rejects_but_lookup_failure_grants_witness :
    processPaymentIntent [] (fun _ => some 1000) "u1" "TENCALLS_PRICE_ID" 999 "pi_1"
      "nk" { users := [{ id := "u1", email := "a@b.c", keys := [] }], payments := [] } =
      (400, { users := [{ id := "u1", email := "a@b.c", keys := [] }], payments := [] }) ∧
    processPaymentIntent [] (fun _ => none) "u1" "TENCALLS_PRICE_ID" 999 "pi_1"
      "nk" { users := [{ id := "u1", email := "a@b.c", keys := [] }], payments := [] } =
      (200,
       { users := addKeyToUsers [{ id := "u1", email := "a@b.c", keys := [] }] "u1"
           { id := "nk", key := "nk", name := "Paid key", tier := "paid",
             limit := 60, priceKeyName := some "TENCALLS_PRICE_ID", subscriptionId := none },
         payments := recordPayment [] (some "u1") (some "TENCALLS_PRICE_ID") 999 "pi_1" }) := by
  exact payment_mismatch_rejects_but_lookup_failure_grants
    [] (fun _ => some 1000) (fun _ => none) "u1" "TENCALLS_PRICE_ID" "pi_1" "nk"
    999 1000 { users := [{ id := "u1", email := "a@b.c", keys := [] }], payments := [] }
    { id := "u1", email := "a@b.c", keys := [] }
    (by decide) (by decide) rfl (by decide) rfl (by decide) (by decide)

/-- Claim C8 counterexample: when the price lookup fails (billing
system down), the one-off payment event with a tampered amount (999
against any configured price) is not skipped: the handler records the
payment and grants a paid key with the default 60 calls/min, so the
state is changed and a key is granted speculatively. -/
theorem lookup_failure_still_grants_key :
    processPaymentIntent [] (fun _ => none) "u1" "TENCALLS_PRICE_ID" 999 "pi_1"
      "nk"
      { users := [{ id := "u1", email := "a@b.c", keys := [] }], payments := [] } =
      (200,
       { users := [{ id := "u1", email := "a@b.c",
                     keys := [{ id := "nk", key := "nk", name := "Paid key",
                                tier := "paid", limit := 60,
                                priceKeyName := some "TENCALLS_PRICE_ID",
                                subscriptionId := none }] }],
         payments := [{ userId := some "u1", priceKeyName := some "TENCALLS_PRICE_ID",
                        amount := 999, stripePaymentIntent := "pi_1" }] }) := by
  decide

/-! ## Claim C3 -/

/-- Claim C3: the deletion guard is supposed to fail closed, and its
comments say failures must "be conservative and block deletion"; but
every Stripe call carries an inline `.catch` that collapses a failed
query into "no subscription found", so the handler falls through and
deletes the key. First conjunct: with the billing system down (every
query fails), the DELETE of a paid key that has a stored subscription
id returns 200 and removes the key. Second conjunct: the guard itself
works when the query succeeds — an `active` subscription blocks the
deletion with a 400 and the key is kept. -/
theorem delete_guard_fails_open_on_query_failure :
    deleteKeyGuarded
      [{ id := "u1", email := "a@b.c",
         keys := [{ id := "k1", key := "sec1", name := "Paid key", tier := "paid",
                    limit := 50, priceKeyName := some "FIFTYCALLS_PRICE_ID",
                    subscriptionId := some "sub_1" }] }]
      []
      { subStatus := fun _ => none, priceInfo := fun _ => none,
        customers := fun _ => [], subs := fun _ => [] }
      "u1" "k1" =
      (200, [{ id := "u1", email := "a@b.c", keys := [] }]) ∧
    deleteKeyGuarded
      [{ id := "u1", email := "a@b.c",
         keys := [{ id := "k1", key := "sec1", name := "Paid key", tier := "paid",
                    limit := 50, priceKeyName := some "FIFTYCALLS_PRICE_ID",
                    subscriptionId := some "sub_1" }] }]
      []
      { subStatus := fun _ => some "active", priceInfo := fun _ => none,
        customers := fun _ => [], subs := fun _ => [] }
      "u1" "k1" =
      (400,
       [{ id := "u1", email := "a@b.c",
          keys := [{ id := "k1", key := "sec1", name := "Paid key", tier := "paid",
                     limit := 50, priceKeyName := some "FIFTYCALLS_PRICE_ID",
                     subscriptionId := some "sub_1" }] }]) := by
  decide

/-! ## Claim C4 -/

/-- `n` sequential calls of the file-based `checkAndIncrementKey` for
one key with fixed limits inside fixed windows. -/
def rlIterate (key : String) (mL dL : Int) (nowMinute : Int) (nowDay : String)
    (store : UsageStore) : Nat → UsageStore
  | 0 => store
  | n + 1 =>
    (checkAndIncrementKeyFile (rlIterate key mL dL nowMinute nowDay store n)
      key mL dL nowMinute nowDay).2

/-- When the stored entry already carries the current window ids,
rollover changes nothing. -/
theorem rolledEntry_current (store : UsageStore) (key : String) (nowMinute : Int)
    (nowDay : String) (e : UsageEntry)
    (h : lookupUsage store key = some e)
    (hm : e.minuteWindowStart = nowMinute) (hd : e.dayWindowStart = nowDay) :
    rolledEntry store key nowMinute nowDay = e := by
  simp [rolledEntry, h, rollEntry, hm, hd]

/-- Counts after `n` admitted sequential calls inside one window pair:
both counters advance by exactly `n` while the window ids stay put. -/
theorem rlIterate_lookup (store : UsageStore) (key : String) (mL dL nowMinute : Int)
    (nowDay : String) (e : UsageEntry)
    (h : lookupUsage store key = some e)
    (hm : e.minuteWindowStart = nowMinute) (hd : e.dayWindowStart = nowDay)
    (n : Nat) (hmn : e.minuteCount + (n : Int) ≤ mL) (hdn : e.dayCount + (n : Int) ≤ dL) :
    lookupUsage (rlIterate key mL dL nowMinute nowDay store n) key =
      some { e with minuteCount := e.minuteCount + (n : Int),
                    dayCount := e.dayCount + (n : Int) } := by
  induction n with
  | zero => simpa [rlIterate] using h
  | succ n ih =>
    have hmn' : e.minuteCount + (n : Int) ≤ mL := by
      have : ((n + 1 : Nat) : Int) = (n : Int) + 1 := by push_cast; ring
      omega
    have hdn' : e.dayCount + (n : Int) ≤ dL := by
      have : ((n + 1 : Nat) : Int) = (n : Int) + 1 := by push_cast; ring
      omega
    have ihn := ih hmn' hdn'
    have hroll : rolledEntry (rlIterate key mL dL nowMinute nowDay store n) key
        nowMinute nowDay =
        { e with minuteCount := e.minuteCount + (n : Int),
                 dayCount := e.dayCount + (n : Int) } :=
      rolledEntry_current _ _ _ _ _ ihn (by simpa using hm) (by simpa using hd)
    have hstep := file_allow (rlIterate key mL dL nowMinute nowDay store n) key
      mL dL nowMinute nowDay
      (by
        rw [hroll]
        show e.minuteCount + (n : Int) + 1 ≤ mL
        have : ((n + 1 : Nat) : Int) = (n : Int) + 1 := by push_cast; ring
        omega)
      (by
        rw [hroll]
        show e.dayCount + (n : Int) + 1 ≤ dL
        have : ((n + 1 : Nat) : Int) = (n : Int) + 1 := by push_cast; ring
        omega)
    show lookupUsage (checkAndIncrementKeyFile
      (rlIterate key mL dL nowMinute nowDay store n) key mL dL nowMinute nowDay).2 key = _
    rw [hstep]
    rw [lookupUsage_insert_self]
    rw [hroll]
    have : ((n + 1 : Nat) : Int) = (n : Int) + 1 := by push_cast; ring
    rw [this]
    simp [add_assoc]

/-- Claim C4 (amended): provided the day window affords headroom, the
minute boundary behaves as claimed, and the two windows roll over
independently. (A) For a key whose entry sits in the current windows
with minute count 0, the `L` first attempts are all committed (the
stored counts reach exactly `minuteCount = L`), and the `(L+1)`-th
attempt in the same minute window is rejected with
`minuteRemaining = 0`. (B) When the observed minute window differs
from the stored one, the minute count resets to 0 while the day count
is untouched, so the first attempt of the new minute window is
admitted even though the stored minute count had exhausted the limit,
charging the persisting day count. (C) Symmetrically, a differing day
string resets only the day count, the minute count persisting. Without
the day-headroom hypotheses the first part of the claim is false, see
the counterexample. -/
theorem minute_boundary_and_independent_rollover
    (store store2 store3 : UsageStore) (key : String) (L : Nat)
    (dL nowMinute nowMinute2 : Int) (nowDay nowDay2 : String)
    (e e2 e3 : UsageEntry)
    (h1 : lookupUsage store key = some e)
    (h1m : e.minuteWindowStart = nowMinute) (h1d : e.dayWindowStart = nowDay)
    (h1c : e.minuteCount = 0)
    (hL : 1 ≤ (L : Int))
    (hday : e.dayCount + (L : Int) + 1 ≤ dL)
    (h2 : lookupUsage store2 key = some e2)
    (h2m : e2.minuteWindowStart ≠ nowMinute2) (h2d : e2.dayWindowStart = nowDay)
    (h2day : e2.dayCount + 1 ≤ dL)
    (h3 : lookupUsage store3 key = some e3)
    (h3m : e3.minuteWindowStart = nowMinute) (h3d : e3.dayWindowStart ≠ nowDay2) :
    lookupUsage (rlIterate key (L : Int) dL nowMinute nowDay store L) key =
      some { e with minuteCount := (L : Int), dayCount := e.dayCount + (L : Int) } ∧
    (checkAndIncrementKeyFile (rlIterate key (L : Int) dL nowMinute nowDay store L)
      key (L : Int) dL nowMinute nowDay).1.allowed = false ∧
    (checkAndIncrementKeyFile (rlIterate key (L : Int) dL nowMinute nowDay store L)
      key (L : Int) dL nowMinute nowDay).1.minuteRemaining = 0 ∧
    rolledEntry store2 key nowMinute2 nowDay =
      { e2 with minuteWindowStart := nowMinute2, minuteCount := 0 } ∧
    (checkAndIncrementKeyFile store2 key (L : Int) dL nowMinute2 nowDay).1.allowed = true ∧
    lookupUsage (checkAndIncrementKeyFile store2 key (L : Int) dL nowMinute2 nowDay).2 key =
      some { e2 with minuteWindowStart := nowMinute2, minuteCount := 1,
                     dayCount := e2.dayCount + 1 } ∧
    rolledEntry store3 key nowMinute nowDay2 =
      { e3 with dayWindowStart := nowDay2, dayCount := 0 } := by
  have hiter := rlIterate_lookup store key (L : Int) dL nowMinute nowDay e h1 h1m h1d L
    (by omega) (by omega)
  have hiter' : lookupUsage (rlIterate key (L : Int) dL nowMinute nowDay store L) key =
      some { e with minuteCount := (L : Int), dayCount := e.dayCount + (L : Int) } := by
    rw [hiter, h1c]
    simp
  have hrollL : rolledEntry (rlIterate key (L : Int) dL nowMinute nowDay store L) key
      nowMinute nowDay =
      { e with minuteCount := (L : Int), dayCount := e.dayCount + (L : Int) } :=
    rolledEntry_current _ _ _ _ _ hiter' (by simpa using h1m) (by simpa using h1d)
  have hrejcond : ((rolledEntry (rlIterate key (L : Int) dL nowMinute nowDay store L) key
      nowMinute nowDay).minuteCount + 1 > (L : Int) ∨
      (rolledEntry (rlIterate key (L : Int) dL nowMinute nowDay store L) key
        nowMinute nowDay).dayCount + 1 > dL) := by
    left
    rw [hrollL]
    simp
  have hroll2 : rolledEntry store2 key nowMinute2 nowDay =
      { e2 with minuteWindowStart := nowMinute2, minuteCount := 0 } := by
    simp [rolledEntry, h2, rollEntry, h2m, h2d]
  have hstep2 := file_allow store2 key (L : Int) dL nowMinute2 nowDay
    (by rw [hroll2]; show (0 : Int) + 1 ≤ (L : Int); omega)
    (by rw [hroll2]; show e2.dayCount + 1 ≤ dL; exact h2day)
  refine ⟨hiter', ?_, ?_, hroll2, ?_, ?_, ?_⟩
  · simp [checkAndIncrementKeyFile, if_pos hrejcond]
  · simp only [checkAndIncrementKeyFile, if_pos hrejcond]
    rw [hrollL]
    simp
  · rw [hstep2]
  · rw [hstep2, lookupUsage_insert_self, hroll2]
    simp
  · simp [rolledEntry, h3, rollEntry, h3m, h3d]

/-- Witness for `minute_boundary_and_independent_rollover`: limit 2,
day limit 10; an exhausted prior window (`e2.minuteCount = 2`) and a
day rollover case. -/
theorem minute_boundary_and_independent_rollover_witness :
    lookupUsage (rlIterate "k" ((2 : Nat) : Int) 10 5 "d"
      [("k", { key := "k", minuteWindowStart := 5, minuteCount := 0,
               dayWindowStart := "d", dayCount := 3, calls := 0 })] 2) "k" =
      some { key := "k", minuteWindowStart := 5, minuteCount := 2,
             dayWindowStart := "d", dayCount := 5, calls := 0 } ∧
    (checkAndIncrementKeyFile (rlIterate "k" ((2 : Nat) : Int) 10 5 "d"
      [("k", { key := "k", minuteWindowStart := 5, minuteCount := 0,
               dayWindowStart := "d", dayCount := 3, calls := 0 })] 2)
      "k" ((2 : Nat) : Int) 10 5 "d").1.allowed = false ∧
    (checkAndIncrementKeyFile (rlIterate "k" ((2 : Nat) : Int) 10 5 "d"
      [("k", { key := "k", minuteWindowStart := 5, minuteCount := 0,
               dayWindowStart := "d", dayCount := 3, calls := 0 })] 2)
      "k" ((2 : Nat) : Int) 10 5 "d").1.minuteRemaining = 0 ∧
    rolledEntry [("k", { key := "k", minuteWindowStart := 5, minuteCount := 2,
                         dayWindowStart := "d", dayCount := 5, calls := 0 })] "k" 6 "d" =
      { key := "k", minuteWindowStart := 6, minuteCount := 0,
        dayWindowStart := "d", dayCount := 5, calls := 0 } ∧
    (checkAndIncrementKeyFile [("k", { key := "k", minuteWindowStart := 5, minuteCount := 2,
                                       dayWindowStart := "d", dayCount := 5, calls := 0 })]
      "k" ((2 : Nat) : Int) 10 6 "d").1.allowed = true ∧
    lookupUsage (checkAndIncrementKeyFile
      [("k", { key := "k", minuteWindowStart := 5, minuteCount := 2,
               dayWindowStart := "d", dayCount := 5, calls := 0 })]
      "k" ((2 : Nat) : Int) 10 6 "d").2 "k" =
      some { key := "k", minuteWindowStart := 6, minuteCount := 1,
             dayWindowStart := "d", dayCount := 6, calls := 0 } ∧
    rolledEntry [("k", { key := "k", minuteWindowStart := 5, minuteCount := 1,
                         dayWindowStart := "d", dayCount := 7, calls := 0 })] "k" 5 "d2" =
      { key := "k", minuteWindowStart := 5, minuteCount := 1,
        dayWindowStart := "d2", dayCount := 0, calls := 0 } := by
  have h := minute_boundary_and_independent_rollover
    [("k", { key := "k", minuteWindowStart := 5, minuteCount := 0,
             dayWindowStart := "d", dayCount := 3, calls := 0 })]
    [("k", { key := "k", minuteWindowStart := 5, minuteCount := 2,
             dayWindowStart := "d", dayCount := 5, calls := 0 })]
    [("k", { key := "k", minuteWindowStart := 5, minuteCount := 1,
             dayWindowStart := "d", dayCount := 7, calls := 0 })]
    "k" 2 10 5 6 "d" "d2"
    { key := "k", minuteWindowStart := 5, minuteCount := 0,
      dayWindowStart := "d", dayCount := 3, calls := 0 }
    { key := "k", minuteWindowStart := 5, minuteCount := 2,
      dayWindowStart := "d", dayCount := 5, calls := 0 }
    { key := "k", minuteWindowStart := 5, minuteCount := 1,
      dayWindowStart := "d", dayCount := 7, calls := 0 }
    rfl rfl rfl rfl (by decide) (by decide) rfl (by decide) rfl (by decide)
    rfl rfl (by decide)
  exact h

/-- Claim C4 counterexample: with minute limit 5 and day limit 1 on a
fresh key, the sixth admission attempt inside one unchanged minute
window is rejected — but with `minuteRemaining = 4`, not 0, because
the day limit (not the minute limit) was the binding constraint. The
claim's universally quantified boundary statement is therefore false
without a day-headroom proviso. -/
theorem sixth_attempt_rejected_nonzero_minute_remaining :
    (checkAndIncrementKeyFile (rlIterate "k" 5 1 0 "d" [] 5) "k" 5 1 0 "d").1 =
      { allowed := false, minuteRemaining := 4, dayRemaining := 0 } := by
  decide

/-! ## Claim C2 -/

theorem findUserById_id (users : List User) (uid : String) (u : User)
    (h : findUserById users uid = some u) : u.id = uid := by
  induction users with
  | nil => cases h
  | cons v rest ih =>
    by_cases hv : v.id = uid
    · rw [findUserById, if_pos hv] at h
      cases h
      exact hv
    · rw [findUserById, if_neg hv] at h
      exact ih h

theorem findUserByEmail_email (users : List User) (em : String) (u : User)
    (h : findUserByEmail users em = some u) : u.email = em := by
  induction users with
  | nil => cases h
  | cons v rest ih =>
    by_cases hv : v.email = em
    · rw [findUserByEmail, if_pos hv] at h
      cases h
      exact hv
    · rw [findUserByEmail, if_neg hv] at h
      exact ih h

theorem addKey_findUserById (users : List User) (uid : String) (u : User)
    (k : ApiKey) (h : findUserById users uid = some u) :
    findUserById (addKeyToUsers users uid k) uid =
      some { u with keys := u.keys ++ [k] } := by
  induction users with
  | nil => cases h
  | cons v rest ih =>
    by_cases hv : v.id = uid
    · rw [findUserById, if_pos hv] at h
      cases h
      simp [addKeyToUsers, hv, findUserById]
    · rw [findUserById, if_neg hv] at h
      simp [addKeyToUsers, hv, findUserById, ih h]

theorem addKey_findUserByEmail (users : List User) (em : String) (u : User)
    (k : ApiKey) (hem : findUserByEmail users em = some u)
    (hid : findUserById users u.id = some u) :
    findUserByEmail (addKeyToUsers users u.id k) em =
      some { u with keys := u.keys ++ [k] } := by
  induction users with
  | nil => cases hem
  | cons v rest ih =>
    by_cases hv : v.email = em
    · rw [findUserByEmail, if_pos hv] at hem
      cases hem
      simp [addKeyToUsers, findUserByEmail, hv]
    · rw [findUserByEmail, if_neg hv] at hem
      by_cases hvid : v.id = u.id
      · rw [findUserById, if_pos hvid] at hid
        cases hid
        exact absurd (findUserByEmail_email _ _ _ hem) hv
      · rw [findUserById, if_neg hvid] at hid
        simp [addKeyToUsers, hvid, findUserByEmail, hv, ih hem hid]

theorem listKeysForUser_eq (users : List User) (uid : String) (u : User)
    (h : findUserById users uid = some u) :
    listKeysForUser users uid = u.keys := by
  rw [listKeysForUser, h]

/-- The reconciler's grant rule, shared by both webhook branches: only
create the paid key if the principal holds none. -/
def grantIfNoPaid (users : List User) (uid : String) (k : ApiKey) : List User :=
  if (listKeysForUser users uid).any (fun kk => kk.tier = "paid") then users
  else addKeyToUsers users uid k

/-- Paid keys the principal currently holds. -/
def paidCountFor (users : List User) (uid : String) : Nat :=
  (listKeysForUser users uid).countP (fun k => k.tier = "paid")

theorem hasPaid_iff_paidCount (users : List User) (uid : String) :
    (listKeysForUser users uid).any (fun kk => kk.tier = "paid") = true ↔
      paidCountFor users uid ≠ 0 := by
  rw [paidCountFor]
  constructor
  · intro h hc
    obtain ⟨x, hx, hpx⟩ := List.any_eq_true.mp h
    exact absurd hpx (List.countP_eq_zero.mp hc x hx)
  · intro h
    rcases List.countP_pos_iff.mp (Nat.pos_of_ne_zero h) with ⟨x, hx, hpx⟩
    exact List.any_eq_true.mpr ⟨x, hx, hpx⟩

theorem grantIfNoPaid_findUserById (users : List User) (uid : String) (u : User)
    (k : ApiKey) (h : findUserById users uid = some u) :
    findUserById (grantIfNoPaid users uid k) uid =
      some (if (listKeysForUser users uid).any (fun kk => kk.tier = "paid") then u
            else { u with keys := u.keys ++ [k] }) := by
  rw [grantIfNoPaid]
  by_cases hp : (listKeysForUser users uid).any (fun kk => kk.tier = "paid") = true
  · simp [hp, h]
  · simp only [Bool.not_eq_true] at hp
    simp [hp, addKey_findUserById users uid u k h]

theorem grantIfNoPaid_paidCount (users : List User) (uid : String) (u : User)
    (k : ApiKey) (h : findUserById users uid = some u) (hk : k.tier = "paid") :
    paidCountFor (grantIfNoPaid users uid k) uid =
      if paidCountFor users uid = 0 then 1 else paidCountFor users uid := by
  by_cases hp : (listKeysForUser users uid).any (fun kk => kk.tier = "paid") = true
  · have hc := (hasPaid_iff_paidCount users uid).mp hp
    rw [grantIfNoPaid, if_pos hp, if_neg hc]
  · have hc : paidCountFor users uid = 0 := by
      by_contra hc
      exact hp ((hasPaid_iff_paidCount users uid).mpr hc)
    rw [grantIfNoPaid, if_neg hp, if_pos hc]
    rw [paidCountFor, listKeysForUser_eq _ _ _ (addKey_findUserById users uid u k h)]
    rw [paidCountFor, listKeysForUser_eq _ _ _ h] at hc
    simp [List.countP_append, hc, List.countP_cons, hk]

theorem grantIfNoPaid_skip (users : List User) (uid : String) (k : ApiKey)
    (hp : (listKeysForUser users uid).any (fun kk => kk.tier = "paid") = true) :
    grantIfNoPaid users uid k = users := by
  rw [grantIfNoPaid, if_pos hp]

/-- One verified `payment_intent.succeeded` run in closed form: the
payment row is always appended, the key only granted when the
principal has no paid key. -/
theorem processPaymentIntent_eq (env : EnvMap) (oracle : String → Option Int)
    (userId priceKeyName piId newId : String) (amount c : Int)
    (st : WorldState) (u : User)
    (huid : userId ≠ "")
    (hver : piVerify env oracle priceKeyName amount = some c)
    (hu : findUserById st.users userId = some u) :
    processPaymentIntent env oracle userId priceKeyName amount piId newId st =
      (200,
       { users := grantIfNoPaid st.users userId
           { id := newId, key := newId, name := "Paid key", tier := "paid",
             limit := c,
             priceKeyName := if priceKeyName = "" then none else some priceKeyName,
             subscriptionId := none },
         payments := recordPayment st.payments (some userId)
           (if priceKeyName = "" then none else some priceKeyName) amount piId }) := by
  have hid := findUserById_id _ _ _ hu
  by_cases hp : (listKeysForUser st.users u.id).any (fun kk => kk.tier = "paid") = true
  · simp [processPaymentIntent, huid, hver, hu, grantIfNoPaid, hid, hid ▸ hp]
  · simp only [Bool.not_eq_true] at hp
    simp [processPaymentIntent, huid, hver, hu, grantIfNoPaid, hid, hid ▸ hp]

/-- One `checkout.session.completed` run, principal resolved through
the event-carried user id. -/
theorem processCheckout_eq_id (env : EnvMap)
    (subOracle : String → Option (Option String))
    (userId subId em newId : String) (amt : Int) (priceIdOpt : Option String)
    (st : WorldState) (u : User)
    (hsub : subId ≠ "") (hor : subOracle subId = some priceIdOpt)
    (huid : userId ≠ "") (hu : findUserById st.users userId = some u) :
    processCheckout env subOracle userId subId em amt newId st =
      (200,
       { users := grantIfNoPaid st.users u.id
           { id := newId, key := newId, name := "Subscription key", tier := "paid",
             limit := if truthy priceIdOpt then getCallsFromPriceKey env (optStr priceIdOpt) else 60,
             priceKeyName := if truthy priceIdOpt then some (optStr priceIdOpt) else none,
             subscriptionId := some subId },
         payments := recordPayment st.payments (some u.id)
           (if truthy priceIdOpt then some (optStr priceIdOpt) else none) amt subId }) := by
  have hid := findUserById_id _ _ _ hu
  rw [processCheckout]
  rw [if_neg (by simpa using hsub), hor]
  simp only [huid, if_true, ne_eq, not_false_iff, ite_true, hu]
  rw [grantIfNoPaid]
  by_cases hp : (listKeysForUser st.users u.id).any (fun kk => kk.tier = "paid") = true
  · simp [hp]
  · simp only [Bool.not_eq_true] at hp
    simp [hp]

/-- One `checkout.session.completed` run, principal resolved through
the customer-email fallback (no user id carried by the event). -/
theorem processCheckout_eq_email (env : EnvMap)
    (subOracle : String → Option (Option String))
    (subId em newId : String) (amt : Int) (priceIdOpt : Option String)
    (st : WorldState) (u : User)
    (hsub : subId ≠ "") (hor : subOracle subId = some priceIdOpt)
    (hem : em ≠ "") (he : findUserByEmail st.users em = some u) :
    processCheckout env subOracle "" subId em amt newId st =
      (200,
       { users := grantIfNoPaid st.users u.id
           { id := newId, key := newId, name := "Subscription key", tier := "paid",
             limit := if truthy priceIdOpt then getCallsFromPriceKey env (optStr priceIdOpt) else 60,
             priceKeyName := if truthy priceIdOpt then some (optStr priceIdOpt) else none,
             subscriptionId := some subId },
         payments := recordPayment st.payments (some u.id)
           (if truthy priceIdOpt then some (optStr priceIdOpt) else none) amt subId }) := by
  rw [processCheckout]
  rw [if_neg (by simpa using hsub), hor]
  by_cases hp : (listKeysForUser st.users u.id).any (fun kk => kk.tier = "paid") = true
  · simp [hem, he, hp, grantIfNoPaid]
  · simp only [Bool.not_eq_true] at hp
    simp [hem, he, hp, grantIfNoPaid]

/-- Replaying one `payment_intent.succeeded` event `n` times (each run
generates a fresh UUID `ids n` for the key it might create). -/
def piIterate (env : EnvMap) (oracle : String → Option Int)
    (userId priceKeyName : String) (amount : Int) (piId : String)
    (ids : Nat → String) (st : WorldState) : Nat → WorldState
  | 0 => st
  | n + 1 =>
    (processPaymentIntent env oracle userId priceKeyName amount piId (ids n)
      (piIterate env oracle userId priceKeyName amount piId ids st n)).2

/-- Replaying one `checkout.session.completed` event `n` times. -/
def coIterate (env : EnvMap) (subOracle : String → Option (Option String))
    (userId subId em : String) (amt : Int) (ids : Nat → String)
    (st : WorldState) : Nat → WorldState
  | 0 => st
  | n + 1 =>
    (processCheckout env subOracle userId subId em amt (ids n)
      (coIterate env subOracle userId subId em amt ids st n)).2

/-- Invariant of replaying a verified one-off payment event: the user
stays resolvable, one payment row is appended per run, and the paid-key
count either stays put (if the principal already had one) or rises to
exactly one. -/
theorem piIterate_invariant (env : EnvMap) (oracle : String → Option Int)
    (userId priceKeyName piId : String) (amount c : Int) (ids : Nat → String)
    (st : WorldState) (u : User)
    (huid : userId ≠ "")
    (hver : piVerify env oracle priceKeyName amount = some c)
    (hu : findUserById st.users userId = some u) (n : Nat) :
    ∃ u2, findUserById (piIterate env oracle userId priceKeyName amount piId ids st n).users
        userId = some u2 ∧
      (piIterate env oracle userId priceKeyName amount piId ids st n).payments.length =
        st.payments.length + n ∧
      (if paidCountFor st.users userId = 0 then
        paidCountFor (piIterate env oracle userId priceKeyName amount piId ids st n).users
          userId = min n 1
       else
        (piIterate env oracle userId priceKeyName amount piId ids st n).users = st.users) := by
  induction n with
  | zero =>
    refine ⟨u, hu, by simp [piIterate], ?_⟩
    by_cases hc : paidCountFor st.users userId = 0
    · simp [piIterate, hc]
    · simp [piIterate, hc]
  | succ n ih =>
    obtain ⟨u2, hu2, hlen, hcase⟩ := ih
    rw [show piIterate env oracle userId priceKeyName amount piId ids st (n + 1) =
      (processPaymentIntent env oracle userId priceKeyName amount piId (ids n)
        (piIterate env oracle userId priceKeyName amount piId ids st n)).2 from rfl]
    rw [processPaymentIntent_eq env oracle userId priceKeyName piId (ids n) amount c
      _ u2 huid hver hu2]
    refine ⟨_, grantIfNoPaid_findUserById _ _ _ _ hu2, ?_, ?_⟩
    · simp [recordPayment, hlen]
      omega
    · by_cases hc : paidCountFor st.users userId = 0
      · rw [if_pos hc] at hcase ⊢
        rw [grantIfNoPaid_paidCount _ _ _ _ hu2 rfl]
        rcases Nat.eq_zero_or_pos n with hn | hn
        · subst hn
          simp at hcase
          simp [hcase]
        · have h1 : min n 1 = 1 := by omega
          rw [h1] at hcase
          rw [hcase]
          simp
      · rw [if_neg hc] at hcase ⊢
        rw [hcase] at hu2 ⊢
        have hp : (listKeysForUser st.users userId).any (fun kk => kk.tier = "paid") = true :=
          (hasPaid_iff_paidCount st.users userId).mpr hc
        exact grantIfNoPaid_skip _ _ _ hp

theorem grantIfNoPaid_findUserByEmail (users : List User) (em : String) (u2 : User)
    (k : ApiKey) (he : findUserByEmail users em = some u2)
    (hid : findUserById users u2.id = some u2) :
    findUserByEmail (grantIfNoPaid users u2.id k) em =
      some (if (listKeysForUser users u2.id).any (fun kk => kk.tier = "paid") then u2
            else { u2 with keys := u2.keys ++ [k] }) := by
  rw [grantIfNoPaid]
  by_cases hp : (listKeysForUser users u2.id).any (fun kk => kk.tier = "paid") = true
  · simp [hp, he]
  · simp only [Bool.not_eq_true] at hp
    simp [hp, addKey_findUserByEmail users em u2 k he hid]

/-- Invariant of replaying a checkout event resolved through the
event-carried user id. -/
theorem coIterate_invariant_id (env : EnvMap)
    (subOracle : String → Option (Option String))
    (userId subId em : String) (amt : Int) (priceIdOpt : Option String)
    (ids : Nat → String) (st : WorldState) (u : User)
    (hsub : subId ≠ "") (hor : subOracle subId = some priceIdOpt)
    (huid : userId ≠ "") (hu : findUserById st.users userId = some u) (n : Nat) :
    ∃ u2, findUserById (coIterate env subOracle userId subId em amt ids st n).users
        userId = some u2 ∧
      (coIterate env subOracle userId subId em amt ids st n).payments.length =
        st.payments.length + n ∧
      (if paidCountFor st.users userId = 0 then
        paidCountFor (coIterate env subOracle userId subId em amt ids st n).users
          userId = min n 1
       else
        (coIterate env subOracle userId subId em amt ids st n).users = st.users) := by
  induction n with
  | zero =>
    refine ⟨u, hu, by simp [coIterate], ?_⟩
    by_cases hc : paidCountFor st.users userId = 0
    · simp [coIterate, hc]
    · simp [coIterate, hc]
  | succ n ih =>
    obtain ⟨u2, hu2, hlen, hcase⟩ := ih
    have hid2 := findUserById_id _ _ _ hu2
    rw [show coIterate env subOracle userId subId em amt ids st (n + 1) =
      (processCheckout env subOracle userId subId em amt (ids n)
        (coIterate env subOracle userId subId em amt ids st n)).2 from rfl]
    rw [processCheckout_eq_id env subOracle userId subId em (ids n) amt priceIdOpt
      _ u2 hsub hor huid hu2]
    rw [hid2]
    refine ⟨_, grantIfNoPaid_findUserById _ _ _ _ hu2, ?_, ?_⟩
    · simp [recordPayment, hlen]
      omega
    · by_cases hc : paidCountFor st.users userId = 0
      · rw [if_pos hc] at hcase ⊢
        rw [grantIfNoPaid_paidCount _ _ _ _ hu2 rfl]
        rcases Nat.eq_zero_or_pos n with hn | hn
        · subst hn
          simp at hcase
          simp [hcase]
        · have h1 : min n 1 = 1 := by omega
          rw [h1] at hcase
          rw [hcase]
          simp
      · rw [if_neg hc] at hcase ⊢
        rw [hcase] at hu2 ⊢
        have hp : (listKeysForUser st.users userId).any (fun kk => kk.tier = "paid") = true :=
          (hasPaid_iff_paidCount st.users userId).mpr hc
        exact grantIfNoPaid_skip _ _ _ hp

/-- Invariant of replaying a checkout event resolved through the
customer-email fallback. -/
theorem coIterate_invariant_email (env : EnvMap)
    (subOracle : String → Option (Option String))
    (subId em : String) (amt : Int) (priceIdOpt : Option String)
    (ids : Nat → String) (st : WorldState) (u : User)
    (hsub : subId ≠ "") (hor : subOracle subId = some priceIdOpt)
    (hem : em ≠ "") (he : findUserByEmail st.users em = some u)
    (hid : findUserById st.users u.id = some u) (n : Nat) :
    ∃ u2, u2.id = u.id ∧
      findUserByEmail (coIterate env subOracle "" subId em amt ids st n).users em = some u2 ∧
      findUserById (coIterate env subOracle "" subId em amt ids st n).users u2.id = some u2 ∧
      (coIterate env subOracle "" subId em amt ids st n).payments.length =
        st.payments.length + n ∧
      (if paidCountFor st.users u.id = 0 then
        paidCountFor (coIterate env subOracle "" subId em amt ids st n).users u.id = min n 1
       else
        (coIterate env subOracle "" subId em amt ids st n).users = st.users) := by
  induction n with
  | zero =>
    refine ⟨u, rfl, he, hid, by simp [coIterate], ?_⟩
    by_cases hc : paidCountFor st.users u.id = 0
    · simp [coIterate, hc]
    · simp [coIterate, hc]
  | succ n ih =>
    obtain ⟨u2, hid2, he2, hu2, hlen, hcase⟩ := ih
    rw [show coIterate env subOracle "" subId em amt ids st (n + 1) =
      (processCheckout env subOracle "" subId em amt (ids n)
        (coIterate env subOracle "" subId em amt ids st n)).2 from rfl]
    rw [processCheckout_eq_email env subOracle subId em (ids n) amt priceIdOpt
      _ u2 hsub hor hem he2]
    refine ⟨if (listKeysForUser (coIterate env subOracle "" subId em amt ids st n).users
        u2.id).any (fun kk => kk.tier = "paid") then u2
      else { u2 with keys := u2.keys ++
        [{ id := ids n, key := ids n, name := "Subscription key", tier := "paid",
           limit := if truthy priceIdOpt then getCallsFromPriceKey env (optStr priceIdOpt) else 60,
           priceKeyName := if truthy priceIdOpt then some (optStr priceIdOpt) else none,
           subscriptionId := some subId }] }, ?_, ?_, ?_, ?_, ?_⟩
    · split <;> simp [hid2]
    · exact grantIfNoPaid_findUserByEmail _ _ _ _ he2 hu2
    · have h := grantIfNoPaid_findUserById _ _ _
        ({ id := ids n, key := ids n, name := "Subscription key", tier := "paid",
           limit := if truthy priceIdOpt then getCallsFromPriceKey env (optStr priceIdOpt) else 60,
           priceKeyName := if truthy priceIdOpt then some (optStr priceIdOpt) else none,
           subscriptionId := some subId }) hu2
      by_cases hp : (listKeysForUser (coIterate env subOracle "" subId em amt ids st n).users
          u2.id).any (fun kk => kk.tier = "paid") = true
      · simpa [hp] using h
      · simp only [Bool.not_eq_true] at hp
        simpa [hp] using h
    · simp [recordPayment, hlen]
      omega
    · rw [hid2] at hu2 ⊢
      by_cases hc : paidCountFor st.users u.id = 0
      · rw [if_pos hc] at hcase ⊢
        rw [grantIfNoPaid_paidCount _ _ _ _ hu2 rfl]
        rcases Nat.eq_zero_or_pos n with hn | hn
        · subst hn
          simp at hcase
          simp [hcase]
        · have h1 : min n 1 = 1 := by omega
          rw [h1] at hcase
          rw [hcase]
          simp
      · rw [if_neg hc] at hcase ⊢
        rw [hcase] at hu2 ⊢
        have hp : (listKeysForUser st.users u.id).any (fun kk => kk.tier = "paid") = true :=
          (hasPaid_iff_paidCount st.users u.id).mpr hc
        exact grantIfNoPaid_skip _ _ _ hp

/-- Claim C2: replaying an identical billing event any number of times
is idempotent by state. For a verified one-off payment event and for a
subscription checkout event (principal resolved by the event-carried
id or by the customer-email fallback): one payment row is appended per
processed run; the paid-key count of the principal never exceeds
`max 1` of its initial value, so at most one paid key is ever created
in total; and when the principal already holds a paid key, every run
skips key creation entirely, leaving the user store untouched. -/
theorem billing_event_replay_idempotent
    (envA envB envC : EnvMap) (oracleA : String → Option Int)
    (subOrB subOrC : String → Option (Option String))
    (userIdA pknA piIdA userIdB subIdB emB subIdC emC : String)
    (amountA cA amtB amtC : Int) (priceB priceC : Option String)
    (idsA idsB idsC : Nat → String)
    (stA stB stC : WorldState) (uA uB uC : User) (nA nB nC : Nat)
    (huidA : userIdA ≠ "")
    (hverA : piVerify envA oracleA pknA amountA = some cA)
    (huA : findUserById stA.users userIdA = some uA)
    (hsubB : subIdB ≠ "") (horB : subOrB subIdB = some priceB)
    (huidB : userIdB ≠ "") (huB : findUserById stB.users userIdB = some uB)
    (hsubC : subIdC ≠ "") (horC : subOrC subIdC = some priceC)
    (hemC : emC ≠ "") (heC : findUserByEmail stC.users emC = some uC)
    (hidC : findUserById stC.users uC.id = some uC) :
    (piIterate envA oracleA userIdA pknA amountA piIdA idsA stA nA).payments.length =
      stA.payments.length + nA ∧
    paidCountFor (piIterate envA oracleA userIdA pknA amountA piIdA idsA stA nA).users
      userIdA ≤ max 1 (paidCountFor stA.users userIdA) ∧
    (paidCountFor stA.users userIdA ≠ 0 →
      (piIterate envA oracleA userIdA pknA amountA piIdA idsA stA nA).users = stA.users) ∧
    (coIterate envB subOrB userIdB subIdB emB amtB idsB stB nB).payments.length =
      stB.payments.length + nB ∧
    paidCountFor (coIterate envB subOrB userIdB subIdB emB amtB idsB stB nB).users
      userIdB ≤ max 1 (paidCountFor stB.users userIdB) ∧
    (paidCountFor stB.users userIdB ≠ 0 →
      (coIterate envB subOrB userIdB subIdB emB amtB idsB stB nB).users = stB.users) ∧
    (coIterate envC subOrC "" subIdC emC amtC idsC stC nC).payments.length =
      stC.payments.length + nC ∧
    paidCountFor (coIterate envC subOrC "" subIdC emC amtC idsC stC nC).users
      uC.id ≤ max 1 (paidCountFor stC.users uC.id) ∧
    (paidCountFor stC.users uC.id ≠ 0 →
      (coIterate envC subOrC "" subIdC emC amtC idsC stC nC).users = stC.users) := by
  obtain ⟨_, _, hlenA, hcaseA⟩ :=
    piIterate_invariant envA oracleA userIdA pknA piIdA amountA cA idsA stA uA
      huidA hverA huA nA
  obtain ⟨_, _, hlenB, hcaseB⟩ :=
    coIterate_invariant_id envB subOrB userIdB subIdB emB amtB priceB idsB stB uB
      hsubB horB huidB huB nB
  obtain ⟨_, _, _, _, hlenC, hcaseC⟩ :=
    coIterate_invariant_email envC subOrC subIdC emC amtC priceC idsC stC uC
      hsubC horC hemC heC hidC nC
  refine ⟨hlenA, ?_, ?_, hlenB, ?_, ?_, hlenC, ?_, ?_⟩
  · by_cases hc : paidCountFor stA.users userIdA = 0
    · rw [if_pos hc] at hcaseA
      rw [hcaseA, hc]
      omega
    · rw [if_neg hc] at hcaseA
      rw [hcaseA]
      exact le_max_right 1 _
  · intro hne
    rw [if_neg hne] at hcaseA
    exact hcaseA
  · by_cases hc : paidCountFor stB.users userIdB = 0
    · rw [if_pos hc] at hcaseB
      rw [hcaseB, hc]
      omega
    · rw [if_neg hc] at hcaseB
      rw [hcaseB]
      exact le_max_right 1 _
  · intro hne
    rw [if_neg hne] at hcaseB
    exact hcaseB
  · by_cases hc : paidCountFor stC.users uC.id = 0
    · rw [if_pos hc] at hcaseC
      rw [hcaseC, hc]
      omega
    · rw [if_neg hc] at hcaseC
      rw [hcaseC]
      exact le_max_right 1 _
  · intro hne
    rw [if_neg hne] at hcaseC
    exact hcaseC

/-- Witness for `billing_event_replay_idempotent`: two replays of each
event shape against one-user worlds. -/
theorem billing_event_replay_idempotent_witness :
    (piIterate [] (fun _ => some 1000) "u1" "TENCALLS_PRICE_ID" 1000 "pi1"
      (fun _ => "nk") { users := [{ id := "u1", email := "a@b.c", keys := [] }],
                        payments := [] } 2).payments.length = 0 + 2 ∧
    paidCountFor (piIterate [] (fun _ => some 1000) "u1" "TENCALLS_PRICE_ID" 1000 "pi1"
      (fun _ => "nk") { users := [{ id := "u1", email := "a@b.c", keys := [] }],
                        payments := [] } 2).users "u1" ≤
      max 1 (paidCountFor [{ id := "u1", email := "a@b.c", keys := [] }] "u1") ∧
    (paidCountFor [{ id := "u1", email := "a@b.c", keys := [] }] "u1" ≠ 0 →
      (piIterate [] (fun _ => some 1000) "u1" "TENCALLS_PRICE_ID" 1000 "pi1"
        (fun _ => "nk") { users := [{ id := "u1", email := "a@b.c", keys := [] }],
                          payments := [] } 2).users =
        [{ id := "u1", email := "a@b.c", keys := [] }]) ∧
    (coIterate [] (fun _ => some (some "px")) "u1" "sub1" "" 500
      (fun _ => "nk2") { users := [{ id := "u1", email := "a@b.c", keys := [] }],
                         payments := [] } 2).payments.length = 0 + 2 ∧
    paidCountFor (coIterate [] (fun _ => some (some "px")) "u1" "sub1" "" 500
      (fun _ => "nk2") { users := [{ id := "u1", email := "a@b.c", keys := [] }],
                         payments := [] } 2).users "u1" ≤
      max 1 (paidCountFor [{ id := "u1", email := "a@b.c", keys := [] }] "u1") ∧
    (paidCountFor [{ id := "u1", email := "a@b.c", keys := [] }] "u1" ≠ 0 →
      (coIterate [] (fun _ => some (some "px")) "u1" "sub1" "" 500
        (fun _ => "nk2") { users := [{ id := "u1", email := "a@b.c", keys := [] }],
                           payments := [] } 2).users =
        [{ id := "u1", email := "a@b.c", keys := [] }]) ∧
    (coIterate [] (fun _ => some (some "px")) "" "sub2" "e@x.y" 500
      (fun _ => "nk3") { users := [{ id := "u2", email := "e@x.y", keys := [] }],
                         payments := [] } 2).payments.length = 0 + 2 ∧
    paidCountFor (coIterate [] (fun _ => some (some "px")) "" "sub2" "e@x.y" 500
      (fun _ => "nk3") { users := [{ id := "u2", email := "e@x.y", keys := [] }],
                         payments := [] } 2).users "u2" ≤
      max 1 (paidCountFor [{ id := "u2", email := "e@x.y", keys := [] }] "u2") ∧
    (paidCountFor [{ id := "u2", email := "e@x.y", keys := [] }] "u2" ≠ 0 →
      (coIterate [] (fun _ => some (some "px")) "" "sub2" "e@x.y" 500
        (fun _ => "nk3") { users := [{ id := "u2", email := "e@x.y", keys := [] }],
                           payments := [] } 2).users =
        [{ id := "u2", email := "e@x.y", keys := [] }]) := by
  exact billing_event_replay_idempotent
    [] [] [] (fun _ => some 1000) (fun _ => some (some "px")) (fun _ => some (some "px"))
    "u1" "TENCALLS_PRICE_ID" "pi1" "u1" "sub1" "" "sub2" "e@x.y"
    1000 10 500 500 (some "px") (some "px")
    (fun _ => "nk") (fun _ => "nk2") (fun _ => "nk3")
    { users := [{ id := "u1", email := "a@b.c", keys := [] }], payments := [] }
    { users := [{ id := "u1", email := "a@b.c", keys := [] }], payments := [] }
    { users := [{ id := "u2", email := "e@x.y", keys := [] }], payments := [] }
    { id := "u1", email := "a@b.c", keys := [] }
    { id := "u1", email := "a@b.c", keys := [] }
    { id := "u2", email := "e@x.y", keys := [] }
    2 2 2
    (by decide) (by decide) rfl (by decide) rfl (by decide) rfl
    (by decide) rfl (by decide) rfl rfl

/-! ## Claim C6 -/

/-- How many keys in the list carry the given secret. -/
def keysSecretCount : List ApiKey → String → Nat
  | [], _ => 0
  | k :: rest, s => (if k.key = s then 1 else 0) + keysSecretCount rest s

/-- How many keys across all users carry the given secret. -/
def secretCount : List User → String → Nat
  | [], _ => 0
  | u :: rest, s => keysSecretCount u.keys s + secretCount rest s

theorem keysSecretCount_append (l1 l2 : List ApiKey) (s : String) :
    keysSecretCount (l1 ++ l2) s = keysSecretCount l1 s + keysSecretCount l2 s := by
  induction l1 with
  | nil => simp [keysSecretCount]
  | cons k rest ih => simp [keysSecretCount, ih]; omega

theorem secretCount_append (l1 l2 : List User) (s : String) :
    secretCount (l1 ++ l2) s = secretCount l1 s + secretCount l2 s := by
  induction l1 with
  | nil => simp [secretCount]
  | cons u rest ih => simp [secretCount, ih]; omega

theorem findKeyIn_eq_none_of_count (ks : List ApiKey) (s : String)
    (h : keysSecretCount ks s = 0) : findKeyIn ks s = none := by
  induction ks with
  | nil => rfl
  | cons k rest ih =>
    rw [keysSecretCount] at h
    by_cases hk : k.key = s
    · rw [if_pos hk] at h
      omega
    · rw [if_neg hk] at h
      rw [findKeyIn, if_neg hk]
      exact ih (by omega)

theorem findKeyIn_append_hit (pre post : List ApiKey) (k : ApiKey) (s : String)
    (hpre : keysSecretCount pre s = 0) (hk : k.key = s) :
    findKeyIn (pre ++ k :: post) s = some k := by
  induction pre with
  | nil => simp [findKeyIn, hk]
  | cons p rest ih =>
    rw [keysSecretCount] at hpre
    by_cases hp : p.key = s
    · rw [if_pos hp] at hpre
      omega
    · rw [if_neg hp] at hpre
      rw [List.cons_append, findKeyIn, if_neg hp]
      exact ih (by omega)

theorem findUserByApiKey_eq_none_of_count (users : List User) (s : String)
    (h : secretCount users s = 0) : findUserByApiKey users s = none := by
  induction users with
  | nil => rfl
  | cons u rest ih =>
    rw [secretCount] at h
    rw [findUserByApiKey, findKeyIn_eq_none_of_count u.keys s (by omega)]
    exact ih (by omega)

theorem findUserByApiKey_append_skip (U1 rest : List User) (s : String)
    (h : secretCount U1 s = 0) :
    findUserByApiKey (U1 ++ rest) s = findUserByApiKey rest s := by
  induction U1 with
  | nil => rfl
  | cons v tail ih =>
    rw [secretCount] at h
    rw [List.cons_append, findUserByApiKey,
      findKeyIn_eq_none_of_count v.keys s (by omega)]
    exact ih (by omega)

theorem findUserById_append_first (U1 U2 : List User) (u : User) (userId : String)
    (hU1 : ∀ x ∈ U1, x.id ≠ userId) (huid : u.id = userId) :
    findUserById (U1 ++ u :: U2) userId = some u := by
  induction U1 with
  | nil => simp [findUserById, huid]
  | cons v tail ih =>
    rw [List.cons_append, findUserById, if_neg (hU1 v (by simp))]
    exact ih (fun x hx => hU1 x (by simp [hx]))

theorem rotateKeys_decomp (pre post : List ApiKey) (k0 : ApiKey)
    (keyId newKey : String) (hpre : ∀ k ∈ pre, k.id ≠ keyId) (hk0 : k0.id = keyId) :
    rotateKeys (pre ++ k0 :: post) keyId newKey =
      pre ++ { k0 with key := newKey } :: post := by
  induction pre with
  | nil => simp [rotateKeys, hk0]
  | cons p tail ih =>
    rw [List.cons_append, rotateKeys, if_neg (hpre p (by simp))]
    rw [ih (fun k hk => hpre k (by simp [hk]))]
    rfl

theorem rotateUsers_decomp (U1 U2 : List User) (u : User)
    (userId keyId newKey : String)
    (hU1 : ∀ x ∈ U1, x.id ≠ userId) (huid : u.id = userId) :
    rotateUsers (U1 ++ u :: U2) userId keyId newKey =
      U1 ++ { u with keys := rotateKeys u.keys keyId newKey } :: U2 := by
  induction U1 with
  | nil => simp [rotateUsers, huid]
  | cons v tail ih =>
    rw [List.cons_append, rotateUsers, if_neg (hU1 v (by simp))]
    rw [ih (fun x hx => hU1 x (by simp [hx]))]
    rfl

/-- Claim C6: immediately after `rotateApiKeyForUser` replaces the
secret of key `k0` (the first key with the target id of the first user
with the target user id, per the source's find-then-break loops) with
a fresh `newSecret`, a reverse lookup of the old secret returns
nothing — so a request bearing it is Unauthorized — while a lookup of
the new secret resolves to the very same key record (same key id) held
by the same owner, so a request bearing it is admitted subject to
quota. Hypotheses: the old secret was held by exactly that one key and
the new secret by none (`randomUUID` freshness). -/
theorem rotate_invalidates_old_secret (U1 U2 : List User) (pre post : List ApiKey)
    (u : User) (k0 : ApiKey) (userId keyId oldSecret newSecret : String)
    (hU1 : ∀ x ∈ U1, x.id ≠ userId)
    (huid : u.id = userId)
    (hkeys : u.keys = pre ++ k0 :: post)
    (hpre : ∀ k ∈ pre, k.id ≠ keyId)
    (hk0 : k0.id = keyId)
    (hk0sec : k0.key = oldSecret)
    (hold : secretCount (U1 ++ u :: U2) oldSecret = 1)
    (hnew : secretCount (U1 ++ u :: U2) newSecret = 0)
    (hons : oldSecret ≠ newSecret) :
    rotateApiKeyForUser (U1 ++ u :: U2) userId keyId newSecret =
      some (U1 ++ { u with keys := pre ++ { k0 with key := newSecret } :: post } :: U2) ∧
    findUserByApiKey (rotateUsers (U1 ++ u :: U2) userId keyId newSecret) oldSecret =
      none ∧
    findUserByApiKey (rotateUsers (U1 ++ u :: U2) userId keyId newSecret) newSecret =
      some ({ u with keys := pre ++ { k0 with key := newSecret } :: post },
            { k0 with key := newSecret }) := by
  have hrotK : rotateKeys u.keys keyId newSecret =
      pre ++ { k0 with key := newSecret } :: post := by
    rw [hkeys]
    exact rotateKeys_decomp pre post k0 keyId newSecret hpre hk0
  have hrotU : rotateUsers (U1 ++ u :: U2) userId keyId newSecret =
      U1 ++ { u with keys := pre ++ { k0 with key := newSecret } :: post } :: U2 := by
    rw [rotateUsers_decomp U1 U2 u userId keyId newSecret hU1 huid, hrotK]
  have hcounts : secretCount U1 oldSecret = 0 ∧ keysSecretCount pre oldSecret = 0 ∧
      keysSecretCount post oldSecret = 0 ∧ secretCount U2 oldSecret = 0 := by
    rw [secretCount_append, secretCount, hkeys, keysSecretCount_append,
      keysSecretCount, if_pos hk0sec] at hold
    refine ⟨by omega, by omega, by omega, by omega⟩
  have hncounts : secretCount U1 newSecret = 0 ∧ keysSecretCount pre newSecret = 0 ∧
      secretCount U2 newSecret = 0 := by
    rw [secretCount_append, secretCount, hkeys, keysSecretCount_append,
      keysSecretCount] at hnew
    refine ⟨by omega, by omega, by omega⟩
  refine ⟨?_, ?_, ?_⟩
  · rw [rotateApiKeyForUser,
      findUserById_append_first U1 U2 u userId hU1 huid, hrotU]
  · rw [hrotU]
    apply findUserByApiKey_eq_none_of_count
    rw [secretCount_append, secretCount, keysSecretCount_append, keysSecretCount]
    rw [if_neg (by simpa using Ne.symm hons)]
    omega
  · rw [hrotU]
    rw [findUserByApiKey_append_skip U1 _ newSecret hncounts.1]
    rw [findUserByApiKey]
    rw [show ({ u with keys := pre ++ { k0 with key := newSecret } :: post } : User).keys =
      pre ++ { k0 with key := newSecret } :: post from rfl]
    rw [findKeyIn_append_hit pre post _ newSecret hncounts.2.1 rfl]

/-- Witness for `rotate_invalidates_old_secret`: one user holding a
free key and the rotated key. -/
theorem rotate_invalidates_old_secret_witness :
    rotateApiKeyForUser
      [{ id := "u1", email := "a@b.c",
         keys := [{ id := "kf", key := "secfree", name := "Default", tier := "free",
                    limit := 5, priceKeyName := none, subscriptionId := none },
                  { id := "k1", key := "oldsec", name := "Paid key", tier := "paid",
                    limit := 10, priceKeyName := none, subscriptionId := none }] }]
      "u1" "k1" "newsec" =
      some [{ id := "u1", email := "a@b.c",
              keys := [{ id := "kf", key := "secfree", name := "Default", tier := "free",
                         limit := 5, priceKeyName := none, subscriptionId := none },
                       { id := "k1", key := "newsec", name := "Paid key", tier := "paid",
                         limit := 10, priceKeyName := none, subscriptionId := none }] }] ∧
    findUserByApiKey
      (rotateUsers
        [{ id := "u1", email := "a@b.c",
           keys := [{ id := "kf", key := "secfree", name := "Default", tier := "free",
                      limit := 5, priceKeyName := none, subscriptionId := none },
                    { id := "k1", key := "oldsec", name := "Paid key", tier := "paid",
                      limit := 10, priceKeyName := none, subscriptionId := none }] }]
        "u1" "k1" "newsec") "oldsec" = none ∧
    findUserByApiKey
      (rotateUsers
        [{ id := "u1", email := "a@b.c",
           keys := [{ id := "kf", key := "secfree", name := "Default", tier := "free",
                      limit := 5, priceKeyName := none, subscriptionId := none },
                    { id := "k1", key := "oldsec", name := "Paid key", tier := "paid",
                      limit := 10, priceKeyName := none, subscriptionId := none }] }]
        "u1" "k1" "newsec") "newsec" =
      some ({ id := "u1", email := "a@b.c",
              keys := [{ id := "kf", key := "secfree", name := "Default", tier := "free",
                         limit := 5, priceKeyName := none, subscriptionId := none },
                       { id := "k1", key := "newsec", name := "Paid key", tier := "paid",
                         limit := 10, priceKeyName := none, subscriptionId := none }] },
            { id := "k1", key := "newsec", name := "Paid key", tier := "paid",
              limit := 10, priceKeyName := none, subscriptionId := none }) := by
  exact rotate_invalidates_old_secret []
    []
    [{ id := "kf", key := "secfree", name := "Default", tier := "free",
       limit := 5, priceKeyName := none, subscriptionId := none }]
    []
    { id := "u1", email := "a@b.c",
      keys := [{ id := "kf", key := "secfree", name := "Default", tier := "free",
                 limit := 5, priceKeyName := none, subscriptionId := none },
               { id := "k1", key := "oldsec", name := "Paid key", tier := "paid",
                 limit := 10, priceKeyName := none, subscriptionId := none }] }
    { id := "k1", key := "oldsec", name := "Paid key", tier := "paid",
      limit := 10, priceKeyName := none, subscriptionId := none }
    "u1" "k1" "oldsec" "newsec"
    (by simp) rfl rfl (by decide) rfl rfl (by decide) (by decide) (by decide)

/-! ## Claim C10 -/

theorem TIERS_pos (t : String) (v : Int × Int) (h : TIERS t = some v) :
    1 ≤ v.1 ∧ 1 ≤ v.2 := by
  unfold TIERS at h
  split_ifs at h <;> cases h <;> exact ⟨by norm_num, by norm_num⟩

/-- Every tier the pipeline can resolve (including the `free` default)
admits at least one call per window. -/
theorem resolvedLimits_pos (k : ApiKey) (env : EnvMap) :
    1 ≤ (resolvedLimits k env).1 ∧ 1 ≤ (resolvedLimits k env).2 := by
  rw [resolvedLimits]
  cases h : TIERS (if k.tier = "free" then "free"
    else detectTierKeyFromPriceKey (optStr k.priceKeyName) env) with
  | none => exact ⟨by norm_num, by norm_num⟩
  | some v => simpa using TIERS_pos _ v h

/-- A key with no stored counter entry starts from the fresh record. -/
theorem rolledEntry_fresh (store : UsageStore) (key : String) (nowMinute : Int)
    (nowDay : String) (h : lookupUsage store key = none) :
    rolledEntry store key nowMinute nowDay = freshEntry key nowMinute nowDay := by
  simp [rolledEntry, h, rollEntry, freshEntry]

/-- Claim C10: quota counters are keyed by the secret string presented
in the request, not by the key's stable id. For a valid key whose
presented secret has no stored counter entry (exactly the state of a
freshly rotated secret, since rotation touches only the user store),
an admitted request starts fresh windows at count 0 and charges them
to 1; the entry is stored under the presented secret; and every other
entry of the usage store — in particular the counts accumulated under
the old secret — is left exactly as it was, never charged again. -/
theorem quota_counters_keyed_by_presented_secret (users : List User)
    (qs : QuotaState) (env : EnvMap) (u : User) (k : ApiKey)
    (secret oldSecret t : String) (nowMinute : Int) (nowDay : String)
    (hfile : qs.redisConfigured = false) (hsec : secret ≠ "")
    (hfound : findUserByApiKey users secret = some (u, k))
    (hfresh : lookupUsage qs.file secret = none)
    (hos : oldSecret ≠ secret) (ht : t ≠ "") :
    (predictPOST users qs env (some secret) (some t) nowMinute nowDay).1 =
      .predicted (jsToUpper t) ∧
    lookupUsage (predictPOST users qs env (some secret) (some t) nowMinute nowDay).2.file
      secret =
      some { key := secret, minuteWindowStart := nowMinute, minuteCount := 1,
             dayWindowStart := nowDay, dayCount := 1, calls := 1 } ∧
    lookupUsage (predictPOST users qs env (some secret) (some t) nowMinute nowDay).2.file
      oldSecret = lookupUsage qs.file oldSecret ∧
    (predictPOST users qs env (some secret) (some t) nowMinute nowDay).2.redis =
      qs.redis := by
  have hroll := rolledEntry_fresh qs.file secret nowMinute nowDay hfresh
  have hpos := resolvedLimits_pos k env
  have hstep := file_allow qs.file secret (resolvedLimits k env).1
    (resolvedLimits k env).2 nowMinute nowDay
    (by rw [hroll]; show (0 : Int) + 1 ≤ _; omega)
    (by rw [hroll]; show (0 : Int) + 1 ≤ _; omega)
  rw [hroll] at hstep
  have hch : checkAndIncrementKey qs secret (resolvedLimits k env).1
      (resolvedLimits k env).2 nowMinute nowDay =
      ({ allowed := true,
         minuteRemaining := (resolvedLimits k env).1 - (0 + 1),
         dayRemaining := (resolvedLimits k env).2 - (0 + 1) },
       { qs with
         file := insertUsage qs.file secret
                   ({ freshEntry secret nowMinute nowDay with
                      minuteCount := 0 + 1, dayCount := 0 + 1 }) }) := by
    simp [checkAndIncrementKey, hfile, hstep, freshEntry]
  have hinc : incrementCalls
      (insertUsage qs.file secret
        { key := secret, minuteWindowStart := nowMinute, minuteCount := 1,
          dayWindowStart := nowDay, dayCount := 1, calls := 0 }) secret =
      insertUsage qs.file secret
        { key := secret, minuteWindowStart := nowMinute, minuteCount := 1,
          dayWindowStart := nowDay, dayCount := 1, calls := 1 } := by
    simp [incrementCalls, lookupUsage_insert_self, insertUsage_insert_self]
  refine ⟨?_, ?_, ?_, ?_⟩
  · simp [predictPOST, hsec, hfound, hch, ht]
  · simp [predictPOST, hsec, hfound, hch, ht, freshEntry, hinc, lookupUsage_insert_self]
  · simp [predictPOST, hsec, hfound, hch, ht, freshEntry, hinc,
      lookupUsage_insert_ne qs.file secret oldSecret _ (Ne.symm hos)]
  · simp [predictPOST, hsec, hfound, hch, ht]

/-- Witness for `quota_counters_keyed_by_presented_secret`: the store
still holds counts accumulated under the old secret `oldsec`; a
request presenting the fresh secret `newsec` starts a new entry while
the old one is untouched. -/
theorem quota_counters_keyed_by_presented_secret_witness :
    (predictPOST
      [{ id := "u1", email := "a@b.c",
         keys := [{ id := "k1", key := "newsec", name := "Paid key", tier := "free",
                    limit := 5, priceKeyName := none, subscriptionId := none }] }]
      { redisConfigured := false, redis := [],
        file := [("oldsec", { key := "oldsec", minuteWindowStart := 0, minuteCount := 4,
                              dayWindowStart := "d", dayCount := 9, calls := 17 })] }
      [] (some "newsec") (some "AAPL") 0 "d").1 = .predicted (jsToUpper "AAPL") ∧
    lookupUsage (predictPOST
      [{ id := "u1", email := "a@b.c",
         keys := [{ id := "k1", key := "newsec", name := "Paid key", tier := "free",
                    limit := 5, priceKeyName := none, subscriptionId := none }] }]
      { redisConfigured := false, redis := [],
        file := [("oldsec", { key := "oldsec", minuteWindowStart := 0, minuteCount := 4,
                              dayWindowStart := "d", dayCount := 9, calls := 17 })] }
      [] (some "newsec") (some "AAPL") 0 "d").2.file "newsec" =
      some { key := "newsec", minuteWindowStart := 0, minuteCount := 1,
             dayWindowStart := "d", dayCount := 1, calls := 1 } ∧
    lookupUsage (predictPOST
      [{ id := "u1", email := "a@b.c",
         keys := [{ id := "k1", key := "newsec", name := "Paid key", tier := "free",
                    limit := 5, priceKeyName := none, subscriptionId := none }] }]
      { redisConfigured := false, redis := [],
        file := [("oldsec", { key := "oldsec", minuteWindowStart := 0, minuteCount := 4,
                              dayWindowStart := "d", dayCount := 9, calls := 17 })] }
      [] (some "newsec") (some "AAPL") 0 "d").2.file "oldsec" =
      lookupUsage [("oldsec", { key := "oldsec", minuteWindowStart := 0, minuteCount := 4,
                                dayWindowStart := "d", dayCount := 9, calls := 17 })]
        "oldsec" ∧
    (predictPOST
      [{ id := "u1", email := "a@b.c",
         keys := [{ id := "k1", key := "newsec", name := "Paid key", tier := "free",
                    limit := 5, priceKeyName := none, subscriptionId := none }] }]
      { redisConfigured := false, redis := [],
        file := [("oldsec", { key := "oldsec", minuteWindowStart := 0, minuteCount := 4,
                              dayWindowStart := "d", dayCount := 9, calls := 17 })] }
      [] (some "newsec") (some "AAPL") 0 "d").2.redis = [] := by
  exact quota_counters_keyed_by_presented_secret
    [{ id := "u1", email := "a@b.c",
       keys := [{ id := "k1", key := "newsec", name := "Paid key", tier := "free",
                  limit := 5, priceKeyName := none, subscriptionId := none }] }]
    { redisConfigured := false, redis := [],
      file := [("oldsec", { key := "oldsec", minuteWindowStart := 0, minuteCount := 4,
                            dayWindowStart := "d", dayCount := 9, calls := 17 })] }
    []
    { id := "u1", email := "a@b.c",
      keys := [{ id := "k1", key := "newsec", name := "Paid key", tier := "free",
                 limit := 5, priceKeyName := none, subscriptionId := none }] }
    { id := "k1", key := "newsec", name := "Paid key", tier := "free",
      limit := 5, priceKeyName := none, subscriptionId := none }
    "newsec" "oldsec" "AAPL" 0 "d"
    rfl (by decide) (by decide) (by decide) (by decide) (by decide)

/-! ## Claim C5 -/

/-- The per-minute and per-day Redis keys of one API key never
collide: they differ at the `:m:` / `:d:` marker. -/
theorem minuteRedisKey_ne_dayRedisKey (key : String) (n : Int) (d : String) :
    minuteRedisKey key n ≠ dayRedisKey key d := by
  intro h
  rw [minuteRedisKey, dayRedisKey] at h
  have h2 := congrArg String.data h
  simp only [String.data_append, List.append_assoc] at h2
  have h3 := List.append_cancel_left h2
  have h4 := List.append_cancel_left h3
  simp at h4

/-- What one atomic Redis check does to the minute counter: it always
advances by one, and admission implies the advanced value was within
the minute limit. -/
theorem redisCheck_minute (r : RedisStore) (key : String) (mL dL nowMinute : Int)
    (nowDay : String) :
    lookupRedis (checkAndIncrementKeyRedis r key mL dL nowMinute nowDay).2
      (minuteRedisKey key nowMinute) =
      some ((lookupRedis r (minuteRedisKey key nowMinute)).getD 0 + 1) ∧
    ((checkAndIncrementKeyRedis r key mL dL nowMinute nowDay).1.allowed = true →
      (lookupRedis r (minuteRedisKey key nowMinute)).getD 0 + 1 ≤ mL) := by
  have hne := minuteRedisKey_ne_dayRedisKey key nowMinute nowDay
  rw [checkAndIncrementKeyRedis]
  cases hm : lookupRedis r (minuteRedisKey key nowMinute) with
  | none =>
    simp only [redisIncr, hm]
    constructor
    · cases hd : lookupRedis (insertRedis r (minuteRedisKey key nowMinute) 1)
        (dayRedisKey key nowDay) with
      | none =>
        simp [lookupRedis_insert_ne _ _ _ _ (Ne.symm hne), lookupRedis_insert_self]
      | some v =>
        simp [lookupRedis_insert_ne _ _ _ _ (Ne.symm hne), lookupRedis_insert_self]
    · intro hall
      cases hd : lookupRedis (insertRedis r (minuteRedisKey key nowMinute) 1)
        (dayRedisKey key nowDay) with
      | none =>
        simp only [hd] at hall
        simp at hall
        simpa using hall.1
      | some v =>
        simp only [hd] at hall
        simp at hall
        simpa using hall.1
  | some v =>
    simp only [redisIncr, hm]
    constructor
    · cases hd : lookupRedis (insertRedis r (minuteRedisKey key nowMinute) (v + 1))
        (dayRedisKey key nowDay) with
      | none =>
        simp [lookupRedis_insert_ne _ _ _ _ (Ne.symm hne), lookupRedis_insert_self]
      | some w =>
        simp [lookupRedis_insert_ne _ _ _ _ (Ne.symm hne), lookupRedis_insert_self]
    · intro hall
      cases hd : lookupRedis (insertRedis r (minuteRedisKey key nowMinute) (v + 1))
        (dayRedisKey key nowDay) with
      | none =>
        simp only [hd] at hall
        simp at hall
        simpa using hall.1
      | some w =>
        simp only [hd] at hall
        simp at hall
        simpa using hall.1

/-- Setting a pending slot to a result adjusts the admitted count by
exactly that result's admission bit. -/
theorem redisAdmittedCount_set (reqs : List (Option RLResult)) (i : Nat)
    (r : RLResult) (h : reqs.get? i = some none) :
    redisAdmittedCount (reqs.set i (some r)) =
      redisAdmittedCount reqs + (if r.allowed then 1 else 0) := by
  induction reqs generalizing i with
  | nil => cases h
  | cons a rest ih =>
    cases i with
    | zero =>
      rw [List.get?_eq_getElem?] at h
      simp at h
      subst h
      simp [redisAdmittedCount]
      omega
    | succ i =>
      rw [List.get?_eq_getElem?] at h
      simp at h
      have h2 : rest.get? i = some none := by
        rw [List.get?_eq_getElem?, h]
      cases a with
      | none => simp [List.set, redisAdmittedCount, ih i h2]
      | some b => simp [List.set, redisAdmittedCount, ih i h2]; omega

/-- Invariant of any interleaving of atomic Redis checks against one
key in one minute window: the admitted count stays below both the
current minute-counter value and the minute limit. -/
theorem redisRun_admitted_le (key : String) (mL dL nowMinute : Int)
    (nowDay : String) (schedule : List Nat) :
    ∀ cs : RedisConcState,
      0 ≤ (lookupRedis cs.redis (minuteRedisKey key nowMinute)).getD 0 →
      (redisAdmittedCount cs.reqs : Int) ≤
        min ((lookupRedis cs.redis (minuteRedisKey key nowMinute)).getD 0) mL →
      (redisAdmittedCount (redisRun key mL dL nowMinute nowDay cs schedule).reqs : Int) ≤
        min ((lookupRedis (redisRun key mL dL nowMinute nowDay cs schedule).redis
          (minuteRedisKey key nowMinute)).getD 0) mL := by
  induction schedule with
  | nil => exact fun cs _ hI => hI
  | cons i rest ih =>
    intro cs h0 hI
    have hfold : redisRun key mL dL nowMinute nowDay cs (i :: rest) =
        redisRun key mL dL nowMinute nowDay
          (redisReqStep key mL dL nowMinute nowDay cs i) rest := rfl
    rw [hfold]
    cases hget : cs.reqs.get? i with
    | none =>
      have hstep : redisReqStep key mL dL nowMinute nowDay cs i = cs := by
        rw [redisReqStep, hget]
      rw [hstep]
      exact ih cs h0 hI
    | some o =>
      cases o with
      | some r =>
        have hstep : redisReqStep key mL dL nowMinute nowDay cs i = cs := by
          rw [redisReqStep, hget]
        rw [hstep]
        exact ih cs h0 hI
      | none =>
        have hstep : redisReqStep key mL dL nowMinute nowDay cs i =
            { redis := (checkAndIncrementKeyRedis cs.redis key mL dL nowMinute nowDay).2,
              reqs := cs.reqs.set i
                (some (checkAndIncrementKeyRedis cs.redis key mL dL nowMinute nowDay).1) } := by
          rw [redisReqStep, hget]
        rw [hstep]
        have hmin := redisCheck_minute cs.redis key mL dL nowMinute nowDay
        apply ih
        · rw [hmin.1]
          simp
          omega
        · rw [hmin.1,
            redisAdmittedCount_set cs.reqs i _ hget]
          by_cases hall : (checkAndIncrementKeyRedis cs.redis key mL dL nowMinute
              nowDay).1.allowed = true
          · have hle := hmin.2 hall
            simp [hall]
            omega
          · simp only [Bool.not_eq_true] at hall
            simp [hall]
            omega

/-- Claim C5 (amended): when the atomic Redis path backs the limiter,
then for every number of concurrent requests against a single key with
minute limit `mL` and every interleaving (schedule) of their atomic
check-and-increment operations within one minute window starting fresh,
at most `mL` requests are admitted. (The file-based fallback gives no
such guarantee: its read and write are separate steps, and an
interleaving can admit more than the limit — see the counterexample.) -/
theorem concurrent_redis_admissions_bounded (key : String)
    (mL dL nowMinute : Int) (nowDay : String) (r0 : RedisStore)
    (nreqs : Nat) (schedule : List Nat)
    (hml : 0 ≤ mL)
    (hfresh : lookupRedis r0 (minuteRedisKey key nowMinute) = none) :
    (redisAdmittedCount (redisRun key mL dL nowMinute nowDay
      { redis := r0, reqs := List.replicate nreqs none } schedule).reqs : Int) ≤ mL := by
  have hrepl : redisAdmittedCount (List.replicate nreqs none) = 0 := by
    induction nreqs with
    | zero => rfl
    | succ n ih => simpa [List.replicate, redisAdmittedCount] using ih
  have h := redisRun_admitted_le key mL dL nowMinute nowDay schedule
    { redis := r0, reqs := List.replicate nreqs none }
    (by simp [hfresh]) (by simp [hfresh, hrepl, hml])
  calc (redisAdmittedCount (redisRun key mL dL nowMinute nowDay
      { redis := r0, reqs := List.replicate nreqs none } schedule).reqs : Int) ≤ _ := h
    _ ≤ mL := min_le_right _ _

/-- Witness for `concurrent_redis_admissions_bounded`: four requests,
minute limit 2, an arbitrary interleaving. -/
theorem concurrent_redis_admissions_bounded_witness :
    (redisAdmittedCount (redisRun "k" 2 10 0 "d"
      { redis := [], reqs := List.replicate 4 none } [0, 1, 2, 3, 0]).reqs : Int) ≤ 2 := by
  exact concurrent_redis_admissions_bounded "k" 2 10 0 "d" [] 4 [0, 1, 2, 3, 0]
    (by decide) rfl

/-- Claim C5 counterexample: on the file-based fallback path, two
concurrent requests against a key with minute limit 1 under the
interleaving read/read/write/write are BOTH admitted within the same
minute window — the check-then-act race the claim's universal bound
rules out. -/
theorem file_race_admits_over_minute_limit :
    admittedCount (fileRun "k" 1 10 0 "d"
      { store := [], reqs := [.ready, .ready] } [0, 1, 0, 1]).reqs = 2 := by
  decide

end JQuant
